import Mathlib

/-
Verification development for the `@aconitum/utils` library
(EpycSolutions/aconitum, packages/utils).

The TypeScript sources are embedded shallowly:

* JavaScript strings are modelled either as Lean `String`s (URL-side
  utilities, where surrogate code units play no role) or as lists of
  Unicode code points (`CPString`, for the ANSI / string-width
  utilities, whose rules mention surrogate code points explicitly);
* dynamically typed arguments are modelled by small sum types carrying
  the `typeof` tag the code inspects;
* fallible code is modelled with `Except JSError`;
* platform primitives used by the sources (the WHATWG `URL`
  constructor, `Intl.Segmenter`, Unicode property data) are modelled by
  explicit Lean functions or by environment records passed to the
  embedded functions; each such model is marked in its doc comment.
-/

/-- A JavaScript exception value, restricted to what the embedded code
throws: `TypeError` or plain `Error`, with the message text. -/
inductive JSError where
  | typeError (msg : String)
  | error (msg : String)
deriving Repr, DecidableEq

/-- A JavaScript `number` argument, as inspected by
`Number.isSafeInteger`: either a (mathematical) integer value, or some
non-integral number (`NaN`, infinities, fractional values). -/
inductive JSNum where
  | int (i : Int)
  | nonInt
deriving Repr, DecidableEq

/-- Model of `Number.isSafeInteger`: an integer of magnitude at most
2^53 - 1. -/
def isSafeInteger : JSNum → Bool
  | .int i => i.natAbs ≤ 2 ^ 53 - 1
  | .nonInt => false

/-- The East Asian Width categories, from `east-asian-width/index.ts`
(`EastAsianWidthType`). -/
inductive EastAsianWidthType where
  | ambiguous
  | fullwidth
  | halfwidth
  | narrow
  | wide
  | neutral
deriving Repr, DecidableEq

/-- Membership of an integer in any of a list of inclusive ranges. -/
def inRanges (cp : Int) (ranges : List (Int × Int)) : Bool :=
  ranges.any fun r => r.1 ≤ cp && cp ≤ r.2

/-- Modelled from the spec: the East Asian Width lookup module
(imported by `east-asian-width/index.ts` as
`getCategory`/`isAmbiguous`/`isFullWidth`/`isWide`) is not under
`src/`; only its callers are.  The spec describes these utilities as
faithful reimplementations of published Unicode classification tables
(Unicode `EastAsianWidth.txt`).  We model the classification as a
single range table covering representative ranges of every category;
everything not covered is `neutral`, matching the Unicode default.
Code points outside the covered ranges (and all negative inputs) are
classified `neutral`, as in the generated lookup's fallthrough. -/
def getCategory (cp : Int) : EastAsianWidthType :=
  if inRanges cp [(0x3000, 0x3000), (0xFF01, 0xFF60), (0xFFE0, 0xFFE6)] then
    .fullwidth
  else if inRanges cp [(0x1100, 0x115F), (0x2E80, 0x2E99), (0x4E00, 0x9FFF),
      (0xAC00, 0xD7A3), (0xF900, 0xFAFF), (0x1F300, 0x1F64F),
      (0x1F900, 0x1F9FF), (0x20000, 0x2FFFD)] then
    .wide
  else if inRanges cp [(0x20A9, 0x20A9), (0xFF61, 0xFF9F)] then
    .halfwidth
  else if inRanges cp [(0x00A1, 0x00A1), (0x00A4, 0x00A4), (0x2026, 0x2026),
      (0x2190, 0x2199), (0x25A0, 0x25A1)] then
    .ambiguous
  else if inRanges cp [(0x0020, 0x007E), (0x00A2, 0x00A3), (0x00A5, 0x00A6),
      (0x00AC, 0x00AC), (0x00AF, 0x00AF)] then
    .narrow
  else
    .neutral

/-- Modelled from the spec: `isFullWidth` of the missing lookup module
holds exactly of code points whose category is `fullwidth`. -/
def isFullWidth (cp : Int) : Bool := getCategory cp = .fullwidth

/-- Modelled from the spec: `isWide` of the missing lookup module holds
exactly of code points whose category is `wide`. -/
def isWide (cp : Int) : Bool := getCategory cp = .wide

/-- Modelled from the spec: `isAmbiguous` of the missing lookup module
holds exactly of code points whose category is `ambiguous`. -/
def isAmbiguous (cp : Int) : Bool := getCategory cp = .ambiguous

/-- Options of `eastAsianWidth` (east-asian-width/index.ts,
`EastAsianWidthOptions`). -/
structure EastAsianWidthOptions where
  ambiguousAsWide : Bool := false
deriving Repr, DecidableEq

/-- Embedding of `validate` from east-asian-width/index.ts: throws a `TypeError`
when the code point is not a safe integer. -/
def validate (codePoint : JSNum) : Except JSError Unit :=
  if isSafeInteger codePoint then .ok ()
  else .error (.typeError "Expected a code point.")

/-- The integer value of a `JSNum` known to be an integer (only
consulted after `validate` succeeded). -/
def JSNum.val : JSNum → Int
  | .int i => i
  | .nonInt => 0

/-- Embedding of `eastAsianWidth` from east-asian-width/index.ts: validates the code
point, then returns 2 for fullwidth / wide code points (and for
ambiguous ones when `ambiguousAsWide` is set), otherwise 1. -/
def eastAsianWidth (codePoint : JSNum)
    (options : EastAsianWidthOptions := {}) : Except JSError Nat :=
  match validate codePoint with
  | .error e => .error e
  | .ok () =>
    let cp := codePoint.val
    if isFullWidth cp || isWide cp
        || (options.ambiguousAsWide && isAmbiguous cp) then
      .ok 2
    else
      .ok 1

/-- Embedding of `eastAsianWidthType` from east-asian-width/index.ts. -/
def eastAsianWidthType (codePoint : JSNum) :
    Except JSError EastAsianWidthType :=
  match validate codePoint with
  | .error e => .error e
  | .ok () => .ok (getCategory codePoint.val)

/-- A JavaScript string for the ANSI / string-width development: the
sequence of its Unicode code points (lone surrogate code points are
representable, as the string-width rules mention them). -/
abbrev CPString := List Nat

/-- A dynamically typed argument to the string utilities: either a
string or a value of another dynamic type, with its typeof tag. -/
inductive CPVal where
  | str (s : CPString)
  | other (typeofTag : String)
deriving Repr, DecidableEq

/-- A backtracking-matcher over code-point strings: from an input
suffix it returns the possible remaining suffixes after consuming a
match of the sub-pattern, in the preference order of the JavaScript
regex engine (head = preferred).  Used to embed the concrete regex
literals of the sources. -/
abbrev RxM := List Nat → List (List Nat)

/-- Match one code point satisfying a class predicate. -/
def rxChar (p : Nat → Bool) : RxM := fun s =>
  match s with
  | [] => []
  | c :: r => if p c then [r] else []

/-- Concatenation of two sub-patterns. -/
def rxSeq (a b : RxM) : RxM := fun s => (a s).flatMap b

/-- Alternation; the left alternative is preferred, as in JavaScript. -/
def rxAlt (a b : RxM) : RxM := fun s => a s ++ b s

/-- Greedy option `a?`: prefers consuming a match. -/
def rxOpt (a : RxM) : RxM := fun s => a s ++ [s]

/-- Greedy star, bounded by fuel; a body match that consumes nothing is
discarded (JavaScript breaks such empty-progress loops; every star body
in the embedded patterns consumes at least one code point anyway). -/
def rxStarFuel (a : RxM) : Nat → RxM
  | 0, s => [s]
  | n + 1, s =>
    (((a s).filter fun r => r.length < s.length).flatMap (rxStarFuel a n)) ++ [s]

/-- Greedy star `a*`. -/
def rxStar (a : RxM) : RxM := fun s => rxStarFuel a s.length s

/-- Greedy plus `a+`. -/
def rxPlus (a : RxM) : RxM := rxSeq a (rxStar a)

/-- Exactly `n` repetitions of `a`. -/
def rxCount (a : RxM) : Nat → RxM
  | 0 => fun s => [s]
  | n + 1 => rxSeq a (rxCount a n)

/-- Greedy counted repetition with lo and hi bounds: prefers more
repetitions, as the JavaScript engine does for deterministic bodies. -/
def rxBetween (a : RxM) (lo hi : Nat) : RxM := fun s =>
  ((List.range (hi + 1 - lo)).map fun k => hi - k).flatMap fun n => rxCount a n s

/-- The two escape-introducer code points of the ANSI pattern
(`[\u001B\u009B]` in ansi-escapes.ts). -/
def ansiIntroB (c : Nat) : Bool := c == 0x1B || c == 0x9B

/-- The class `[[\]()#;?]` of the ANSI pattern. -/
def ansiLinkClassB (c : Nat) : Bool :=
  ([0x5B, 0x5D, 0x28, 0x29, 0x23, 0x3B, 0x3F] : List Nat).contains c

/-- ASCII digit. -/
def digitB (c : Nat) : Bool := 0x30 ≤ c && c ≤ 0x39

/-- ASCII letter or digit (the class `[a-zA-Z\d]`). -/
def alnumB (c : Nat) : Bool :=
  (0x61 ≤ c && c ≤ 0x7A) || (0x41 ≤ c && c ≤ 0x5A) || digitB c

/-- The class `[-a-zA-Z\d\/#&.:=?%@~_]` of the ANSI pattern. -/
def ansiBodyClassB (c : Nat) : Bool :=
  alnumB c ||
    ([0x2D, 0x2F, 0x23, 0x26, 0x2E, 0x3A, 0x3D, 0x3F, 0x25, 0x40, 0x7E,
      0x5F] : List Nat).contains c

/-- The final-byte class `[\dA-PR-TZcf-nq-uy=><~]` of the ANSI
pattern's second alternative. -/
def ansiFinalClassB (c : Nat) : Bool :=
  digitB c || (0x41 ≤ c && c ≤ 0x50) || (0x52 ≤ c && c ≤ 0x54) || c == 0x5A
    || c == 0x63 || (0x66 ≤ c && c ≤ 0x6E) || (0x71 ≤ c && c ≤ 0x75)
    || c == 0x79 || c == 0x3D || c == 0x3E || c == 0x3C || c == 0x7E

/-- The string-terminator sub-pattern `(?:\u0007|\u001B\|\u009C)`
(`ST` in ansi-escapes.ts). -/
def ansiST : RxM :=
  rxAlt (rxChar fun c => c == 0x07)
    (rxAlt (rxSeq (rxChar fun c => c == 0x1B) (rxChar fun c => c == 0x5C))
      (rxChar fun c => c == 0x9C))

/-- First alternative of the ANSI pattern body
(`(?:(?:(?:;[-a-zA-Z\d\/#&.:=?%@~_]+)*|[a-zA-Z\d]+(?:;[-a-zA-Z\d\/#&.:=?%@~_]*)*)?ST)`). -/
def ansiAltA : RxM :=
  rxSeq
    (rxOpt (rxAlt
      (rxStar (rxSeq (rxChar fun c => c == 0x3B) (rxPlus (rxChar ansiBodyClassB))))
      (rxSeq (rxPlus (rxChar alnumB))
        (rxStar (rxSeq (rxChar fun c => c == 0x3B)
          (rxStar (rxChar ansiBodyClassB)))))))
    ansiST

/-- Second alternative of the ANSI pattern body
(`(?:(?:\d{1,4}(?:;\d{0,4})*)?[\dA-PR-TZcf-nq-uy=><~])`). -/
def ansiAltB : RxM :=
  rxSeq
    (rxOpt (rxSeq (rxBetween (rxChar digitB) 1 4)
      (rxStar (rxSeq (rxChar fun c => c == 0x3B) (rxBetween (rxChar digitB) 0 4)))))
    (rxChar ansiFinalClassB)

/-- The full ANSI-escape pattern built by `ansiRegex()`
(ansi-escapes.ts): an introducer, the link class, then one of the two
alternatives. -/
def ansiPattern : RxM :=
  rxSeq (rxChar ansiIntroB)
    (rxSeq (rxStar (rxChar ansiLinkClassB)) (rxAlt ansiAltA ansiAltB))

/-- Length of the ANSI-pattern match starting at the head of `s`, if
any: the JavaScript engine reports the first match in backtracking
preference order. -/
def ansiMatchLen (s : List Nat) : Option Nat :=
  match ansiPattern s with
  | [] => none
  | r :: _ => some (s.length - r.length)

/-- One pass of `String.replace` with the global ANSI regex and empty
replacement: scan left to right, removing each non-overlapping match
and continuing after it (fuelled by the input length). -/
def ansiReplaceFuel : Nat → List Nat → List Nat
  | 0, s => s
  | _ + 1, [] => []
  | n + 1, c :: r =>
    match ansiMatchLen (c :: r) with
    | some (L + 1) => ansiReplaceFuel n ((c :: r).drop (L + 1))
    | some 0 => c :: ansiReplaceFuel n r
    | none => c :: ansiReplaceFuel n r

/-- Embedding of `strip.replace(ansiRegex(), '')` from ansi-strip.ts. -/
def jsReplaceAllAnsi (s : List Nat) : List Nat := ansiReplaceFuel s.length s

/-- Embedding of `stripAnsi` from ansi-strip.ts, on string inputs: one global
replace of the ANSI pattern by the empty string. -/
def stripAnsi (strip : CPString) : CPString := jsReplaceAllAnsi strip

/-- Embedding of `stripAnsi` from ansi-strip.ts including its dynamic type check:
throws a `TypeError` when the argument is not a string. -/
def stripAnsiJS : CPVal → Except JSError CPString
  | .str s => .ok (stripAnsi s)
  | .other t => .error (.typeError ("Expected a string, got " ++ t))

/-- Membership of a code point in any of a list of inclusive ranges. -/
def inRangesN (c : Nat) (ranges : List (Nat × Nat)) : Bool :=
  ranges.any fun r => r.1 ≤ c && c ≤ r.2

/-- The platform environment `stringWidth` (string/string-width.ts)
depends on: the grapheme segmenter, Unicode property data and the
runtime test `isNode && parseFloat(process.versions.node) >= 20`
(`environment.ts` is not under src/; its `isNode` flag is part of this
environment record). -/
structure WidthEnv where
  /-- Model of `Intl.Segmenter`: grapheme-cluster segmentation. -/
  segment : CPString → List CPString
  /-- Model of the Unicode property `Default_Ignorable_Code_Point`. -/
  dicp : Nat → Bool
  /-- Whether the runtime is Node.js of version at least 20. -/
  nodeAtLeast20 : Bool
  /-- Model of `/\p{RGI_Emoji}/v.test` on a cluster. -/
  rgiEmoji : CPString → Bool
  /-- Model of `emojiRegex().test` (regex/emoji-regex.ts builds its
  pattern entirely from platform Unicode property escapes). -/
  emojiFallback : CPString → Bool

/-- Options of `stringWidth` (string/string-width.ts,
`StringWidthOptions`). -/
structure StringWidthOptions where
  ambiguousIsNarrow : Bool := true
  countAnsiEscapeCodes : Bool := false
deriving Repr, DecidableEq

/-- The width `eastAsianWidth(codePoint, eastAsianWidthOptions)`
contributes inside `stringWidth`; code points read off a string are
always safe integers, so the validation never throws there. -/
def eawWidth (cp : Nat) (ambiguousAsWide : Bool) : Nat :=
  match eastAsianWidth (.int cp) { ambiguousAsWide := ambiguousAsWide } with
  | .ok w => w
  | .error _ => 0

/-- The contribution of one grapheme cluster to `stringWidth`
(string/string-width.ts loop body): clusters opening with a control,
zero-width, combining, high-surrogate or variation-selector code point
are skipped, as are single default-ignorable code points (the source
tests `/^\p{Default_Ignorable_Code_Point}$/u` against the whole
cluster); emoji clusters count 2 (via `\p{RGI_Emoji}` on Node 20+,
otherwise via `emojiRegex()`); everything else counts its first code
point's East Asian Width. -/
def clusterWidth (env : WidthEnv) (ambiguousIsNarrow : Bool)
    (character : CPString) : Nat :=
  match character.head? with
  | none => 0
  | some codePoint =>
    if codePoint < 0x1F then 0
    else if 0x7F ≤ codePoint ∧ codePoint ≤ 0x9F then 0
    else if (0x200B ≤ codePoint ∧ codePoint ≤ 0x200F) ∨ codePoint = 0xFEFF then 0
    else if (0x300 ≤ codePoint ∧ codePoint ≤ 0x36F)
        ∨ (0x1AB0 ≤ codePoint ∧ codePoint ≤ 0x1AFF)
        ∨ (0x1DC0 ≤ codePoint ∧ codePoint ≤ 0x1DFF)
        ∨ (0x20D0 ≤ codePoint ∧ codePoint ≤ 0x20FF)
        ∨ (0xFE20 ≤ codePoint ∧ codePoint ≤ 0xFE2F) then 0
    else if 0xD800 ≤ codePoint ∧ codePoint ≤ 0xDBFF then 0
    else if 0xFE00 ≤ codePoint ∧ codePoint ≤ 0xFE0F then 0
    else if (match character with | [c] => env.dicp c | _ => false) then 0
    else if env.nodeAtLeast20 then
      if env.rgiEmoji character then 2
      else eawWidth codePoint (!ambiguousIsNarrow)
    else if env.emojiFallback character then 2
    else eawWidth codePoint (!ambiguousIsNarrow)

/-- Embedding of `stringWidth` from string/string-width.ts: non-strings and empty
strings yield 0; ANSI escapes are stripped unless
`countAnsiEscapeCodes`; the remaining string is segmented into grapheme
clusters whose widths are summed. -/
def stringWidth (env : WidthEnv) (string : CPVal)
    (options : StringWidthOptions := {}) : Nat :=
  match string with
  | .other _ => 0
  | .str s =>
    if s.length = 0 then 0
    else
      let s := if options.countAnsiEscapeCodes then s else stripAnsi s
      if s.length = 0 then 0
      else
        ((env.segment s).map
          (clusterWidth env options.ambiguousIsNarrow)).sum

/-- Code points our segmenter model glues onto the preceding base:
combining marks, combining half marks and variation selectors. -/
def isExtendCP (c : Nat) : Bool :=
  inRangesN c [(0x300, 0x36F), (0x1AB0, 0x1AFF), (0x1DC0, 0x1DFF),
    (0x20D0, 0x20FF), (0xFE20, 0xFE2F), (0xFE00, 0xFE0F)]

/-- Extent of the current cluster after its base code point: absorbs
extenders, and a zero-width joiner together with the next base. -/
def clusterExtent : Nat → CPString → CPString × CPString
  | 0, rest => ([], rest)
  | _ + 1, [] => ([], [])
  | n + 1, c :: r =>
    if isExtendCP c then
      let (e, r2) := clusterExtent n r
      (c :: e, r2)
    else if c = 0x200D then
      match r with
      | [] => ([c], [])
      | b :: r2 =>
        let (e, r3) := clusterExtent n r2
        (c :: b :: e, r3)
    else
      ([], c :: r)

/-- Fuelled segmentation loop of the segmenter model. -/
def segmentModelFuel : Nat → CPString → List CPString
  | 0, _ => []
  | _ + 1, [] => []
  | n + 1, c :: r =>
    let (e, r2) := clusterExtent r.length r
    (c :: e) :: segmentModelFuel n r2

/-- Model of `Intl.Segmenter` grapheme segmentation: each cluster is a
base code point followed by combining marks / variation selectors, with
zero-width-joiner sequences kept together. -/
def segmentModel (s : CPString) : List CPString := segmentModelFuel s.length s

/-- Model of the Unicode `Default_Ignorable_Code_Point` property
(platform data used by string-width.ts's regular expression). -/
def dicpModel (c : Nat) : Bool :=
  inRangesN c [(0x00AD, 0x00AD), (0x034F, 0x034F), (0x061C, 0x061C),
    (0x115F, 0x1160), (0x17B4, 0x17B5), (0x180B, 0x180F),
    (0x200B, 0x200F), (0x202A, 0x202E), (0x2060, 0x206F),
    (0x3164, 0x3164), (0xFE00, 0xFE0F), (0xFEFF, 0xFEFF),
    (0xFFA0, 0xFFA0), (0xFFF0, 0xFFF8), (0x1BCA0, 0x1BCA3),
    (0x1D173, 0x1D17A), (0xE0000, 0xE0FFF)]

/-- Model of the platform emoji tests (`\p{RGI_Emoji}` and the
property-escape pattern of regex/emoji-regex.ts): a cluster tests true
when it contains a code point of the main emoji blocks. -/
def emojiModel (s : CPString) : Bool :=
  s.any fun c =>
    inRangesN c [(0x1F300, 0x1F5FF), (0x1F600, 0x1F64F), (0x1F680, 0x1F6FF),
      (0x1F900, 0x1F9FF), (0x1FA70, 0x1FAFF), (0x2614, 0x2615),
      (0x26F5, 0x26F5), (0x2708, 0x2708), (0x1F1E6, 0x1F1FF)]

/-- The concrete environment model on Node.js 20+. -/
def modelEnv : WidthEnv :=
  { segment := segmentModel, dicp := dicpModel, nodeAtLeast20 := true,
    rgiEmoji := emojiModel, emojiFallback := emojiModel }

/-- The concrete environment model outside Node.js 20+ (the
`emojiRegex()` fallback branch). -/
def modelEnvLegacy : WidthEnv :=
  { modelEnv with nodeAtLeast20 := false }

/-- A dynamically typed argument to the URL utilities. -/
inductive UrlVal where
  | str (s : String)
  | other (typeofTag : String)
deriving Repr, DecidableEq

/-- List-char split that keeps empty pieces, as JavaScript
`String.prototype.split` does. -/
def splitCharList (p : Char → Bool) : List Char → List (List Char)
  | [] => [[]]
  | c :: r =>
    if p c then [] :: splitCharList p r
    else
      match splitCharList p r with
      | s :: ss => (c :: s) :: ss
      | [] => [[c]]

/-- JavaScript-style split of a string on a character class. -/
def jsSplit (s : String) (p : Char → Bool) : List String :=
  (splitCharList p s.toList).map String.mk

/-- Prefix test over the code-point lists. -/
def jsStartsWith (s pre : String) : Bool :=
  decide (s.toList.take pre.toList.length = pre.toList)

/-- Suffix test over the code-point lists. -/
def jsEndsWith (s suf : String) : Bool :=
  decide (s.toList.drop (s.toList.length - suf.toList.length) = suf.toList)
    && decide (suf.toList.length ≤ s.toList.length)

/-- Drop the first `n` characters. -/
def jsDrop (s : String) (n : Nat) : String := String.mk (s.toList.drop n)

/-- Take the first `n` characters. -/
def jsTake (s : String) (n : Nat) : String := String.mk (s.toList.take n)

/-- Number of characters (code points; the model for `.length`). -/
def jsLength (s : String) : Nat := s.toList.length

/-- Character membership. -/
def jsContainsChar (s : String) (c : Char) : Bool := s.toList.any (· = c)

/-- Model of `Array.prototype.join`. -/
def jsIntercalate (sep : String) : List String → String
  | [] => ""
  | h :: t => t.foldl (fun acc x => acc ++ sep ++ x) h

/-- Numeric value of a digit string. -/
def natOfDigits (l : List Char) : Nat :=
  l.foldl (fun a c => a * 10 + (c.toNat - 0x30)) 0

/-- Model of `String.prototype.trim` (ASCII whitespace; the JavaScript
whitespace set is larger, which no theorem here depends on). -/
def jsTrim (s : String) : String :=
  String.mk (((s.toList.dropWhile Char.isWhitespace).reverse.dropWhile
    Char.isWhitespace).reverse)

/-- Remove the first literal `$` of a string: the sources repeatedly
call `.replace(/\$/, '')`, whose pattern is an escaped dollar sign, not
an end anchor. -/
def removeFirstDollar (s : String) : String :=
  match s.toList.findIdx? (· = '$') with
  | none => s
  | some i => String.mk (s.toList.take i ++ s.toList.drop (i + 1))

/-- Model of a parsed WHATWG `URL` object: the component fields the
sources read and write.  `protocol` carries its trailing colon, as in
JavaScript; `search` and `hash` carry their leading `?` / `#` when
non-empty. -/
structure URLRec where
  protocol : String
  username : String := ""
  password : String := ""
  hostname : String := ""
  port : String := ""
  pathname : String := ""
  search : String := ""
  hash : String := ""
  hasAuthority : Bool := false
deriving Repr, DecidableEq

/-- The `host` getter: hostname plus explicit port. -/
def URLRec.host (u : URLRec) : String :=
  if u.port = "" then u.hostname else u.hostname ++ ":" ++ u.port

/-- The `href` getter / `toString` serializer of the model. -/
def URLRec.href (u : URLRec) : String :=
  u.protocol
    ++ (if u.hasAuthority then
          "//"
            ++ (if u.username = "" ∧ u.password = "" then ""
                else u.username
                  ++ (if u.password = "" then "" else ":" ++ u.password)
                  ++ "@")
            ++ u.host
        else "")
    ++ u.pathname ++ u.search ++ u.hash

/-- Schemes the WHATWG standard calls special. -/
def specialSchemes : List String := ["http", "https", "ws", "wss", "ftp", "file"]

/-- Default port of a special scheme, as a string. -/
def defaultPort (scheme : String) : String :=
  if scheme = "http" ∨ scheme = "ws" then "80"
  else if scheme = "https" ∨ scheme = "wss" then "443"
  else if scheme = "ftp" then "21"
  else ""

/-- ASCII lowercasing of a character (a transparent table, which keeps
facts about it by plain case analysis). -/
def asciiLower (c : Char) : Char :=
  match c with
  | 'A' => 'a' | 'B' => 'b' | 'C' => 'c' | 'D' => 'd' | 'E' => 'e'
  | 'F' => 'f' | 'G' => 'g' | 'H' => 'h' | 'I' => 'i' | 'J' => 'j'
  | 'K' => 'k' | 'L' => 'l' | 'M' => 'm' | 'N' => 'n' | 'O' => 'o'
  | 'P' => 'p' | 'Q' => 'q' | 'R' => 'r' | 'S' => 's' | 'T' => 't'
  | 'U' => 'u' | 'V' => 'v' | 'W' => 'w' | 'X' => 'x' | 'Y' => 'y'
  | 'Z' => 'z'
  | _ => c

/-- ASCII lowercasing of a string. -/
def asciiLowerStr (s : String) : String := String.mk (s.toList.map asciiLower)

/-- Scheme parsing of the URL model: an ASCII letter followed by
letters, digits, `+`, `-` or `.`, then a colon. -/
def splitScheme (l : List Char) : Option (String × List Char) :=
  match l with
  | [] => none
  | c :: r =>
    if c.isAlpha then
      let run := r.takeWhile fun d => d.isAlphanum || d = '+' || d = '-' || d = '.'
      match r.drop run.length with
      | ':' :: r2 => some (asciiLowerStr (String.mk (c :: run)), r2)
      | _ => none
    else none

/-- Characters our URL model rejects inside a host (the WHATWG
forbidden host code points). -/
def badHostChar (c : Char) : Bool :=
  c = ' ' || c = '@' || c = '[' || c = ']' || c = '<' || c = '>' || c = '^'
    || c = '|' || c = '\\' || c = '"' || c = '#' || c = '/' || c = ':'
    || c = '?' || c.toNat < 0x21

/-- Authority parsing of the URL model: `[userinfo@]host[:port]`,
terminated by `/`, `?` or `#`.  The last `@` separates the userinfo,
whose first `:` separates username and password; a trailing `:` run of
ASCII digits is the port, which is dropped again when it is the
scheme's default; the host is ASCII-lowercased.  Empty hosts are
rejected for special schemes, non-numeric or oversized ports always. -/
def splitAuthority (scheme : String) (l : List Char) :
    Option (String × String × String × String × List Char) :=
  let auth := l.takeWhile fun c => c ≠ '/' ∧ c ≠ '?' ∧ c ≠ '#'
  let rest := l.drop auth.length
  let special := specialSchemes.contains scheme
  let atSplit :=
    match (auth.reverse.findIdx? (· = '@')) with
    | none => ([], auth)
    | some ri =>
      let i := auth.length - 1 - ri
      (auth.take i, auth.drop (i + 1))
  let userinfo := atSplit.1
  let hostport := atSplit.2
  let username := String.mk (userinfo.takeWhile (· ≠ ':'))
  let password :=
    if userinfo.length > username.length then
      String.mk (userinfo.drop (username.length + 1))
    else ""
  let colonIdx :=
    match hostport.reverse.findIdx? (· = ':') with
    | none => none
    | some ri => some (hostport.length - 1 - ri)
  let hostPart :=
    match colonIdx with
    | none => hostport
    | some i => hostport.take i
  let portPart :=
    match colonIdx with
    | none => ([] : List Char)
    | some i => hostport.drop (i + 1)
  if hostPart.any badHostChar then none
  else if special ∧ hostPart = [] then none
  else if ¬ portPart.all (·.isDigit) then none
  else
    let portVal := String.mk portPart
    if portPart ≠ [] ∧ natOfDigits portPart > 65535 then none
    else
      let port :=
        if portPart = [] ∨ portVal = defaultPort scheme then "" else portVal
      some (username, password, asciiLowerStr (String.mk hostPart), port, rest)

/-- Path / query / fragment split of the URL model. -/
def splitPathSearchHash (l : List Char) : String × String × String :=
  let path := l.takeWhile fun c => c ≠ '?' ∧ c ≠ '#'
  let rest := l.drop path.length
  let search := rest.takeWhile (· ≠ '#')
  let hash := rest.drop search.length
  (String.mk path, String.mk search, String.mk hash)

/-- Model of the WHATWG `new URL(input)` constructor (the platform
primitive used by parser/parse-path (src/unnamed/part_004),
protocols.ts and normalize-url.ts): parses scheme, authority, path,
query and fragment; returns `none` where the constructor throws.  The
model covers absolute URLs without base, ignores percent-encoding
normalization and rejects IPv6 host brackets. -/
def jsURLParse (s : String) : Option URLRec :=
  match splitScheme s.toList with
  | none => none
  | some (scheme, rest) =>
    let special := specialSchemes.contains scheme
    if special then
      let afterSlashes := rest.dropWhile (fun c => c = '/' ∨ c = '\\')
      match splitAuthority scheme afterSlashes with
      | none => none
      | some (username, password, host, port, rest2) =>
        let (path, search, hash) := splitPathSearchHash rest2
        some { protocol := scheme ++ ":", username := username,
               password := password, hostname := host, port := port,
               pathname := if path = "" then "/" else path,
               search := search, hash := hash, hasAuthority := true }
    else
      match rest with
      | '/' :: '/' :: rest1 =>
        match splitAuthority scheme rest1 with
        | none => none
        | some (username, password, host, port, rest2) =>
          let (path, search, hash) := splitPathSearchHash rest2
          some { protocol := scheme ++ ":", username := username,
                 password := password, hostname := host, port := port,
                 pathname := path, search := search, hash := hash,
                 hasAuthority := true }
      | _ =>
        let (path, search, hash) := splitPathSearchHash rest
        some { protocol := scheme ++ ":", pathname := path,
               search := search, hash := hash, hasAuthority := false }

/-- Split a protocol string on `:` and `+` and drop empty pieces
(`protocols.split(/:|\+/).filter(Boolean)` in protocols.ts). -/
def protocolSplits (p : String) : List String :=
  (jsSplit p fun c => c = ':' ∨ c = '+').filter (· ≠ "")

/-- The `input` parameter of `protocols` (protocols.ts): a string or a
`URL` object. -/
inductive ProtocolsInput where
  | str (s : String)
  | url (u : URLRec)

/-- The optional `first` parameter of `protocols`. -/
inductive ProtocolsFirst where
  | omitted
  | bool (b : Bool)
  | num (i : Int)
deriving Repr, DecidableEq

/-- The `string | string[]` (or `undefined`) result of `protocols`. -/
inductive ProtocolsRet where
  | list (l : List String)
  | str (s : String)
  | undef
deriving Repr, DecidableEq

/-- Embedding of `protocols` from protocols.ts: extracts the protocol string of the
input (empty on parse failure), splits it on `:` and `+`, and returns
either the whole array or the element selected by `first` (with `true`
meaning index 0; out-of-range indices give `undefined`). -/
def protocols (input : ProtocolsInput)
    (first : ProtocolsFirst := .omitted) : ProtocolsRet :=
  let first := if first = .bool true then .num 0 else first
  let protos : String :=
    match input with
    | .str s =>
      match jsURLParse s with
      | some u => u.protocol
      | none => ""
    | .url u => u.protocol
  let splits := protocolSplits protos
  match first with
  | .num i =>
    if h : 0 ≤ i ∧ i.toNat < splits.length then
      .str (splits.get ⟨i.toNat, h.2⟩)
    else .undef
  | _ => .list splits

/-- The protocol list `protocols(...)` yields (its callers in
parse-path and is-ssh use the array form). -/
def protocolsList (input : ProtocolsInput) : List String :=
  match protocols input with
  | .list l => l
  | .str s => [s]
  | .undef => []

/-- The character class `[^<>:"/\\|?*]` of parse-path's file-path
patterns. -/
def plainPathChar (c : Char) : Bool :=
  ¬ (c = '<' ∨ c = '>' ∨ c = ':' ∨ c = '"' ∨ c = '/' ∨ c = '\\' ∨ c = '|'
      ∨ c = '?' ∨ c = '*')

/-- Matches `(seg\/)*seg?` against a whole string, where `seg` is a
non-empty run of `plainPathChar` and `sep` is the separator: every
separator-delimited piece is non-empty and plain, except that the last
piece may be empty (a trailing separator). -/
def segTail (sep : Char) (t : String) : Bool :=
  let parts := jsSplit t (· = sep)
  parts.dropLast.all (fun p => p ≠ "" && p.toList.all plainPathChar) &&
    (let l := parts.getLastD ""
     l = "" || l.toList.all plainPathChar)

/-- The pattern `isWindowsPath` of parse-path
(`^([a-zA-Z]:\\|\\\\)([^<>:"/\\|?*]+\\)*([^<>:"/\\|?*]+)?$`). -/
def isWindowsPathB (s : String) : Bool :=
  (match s.toList with
   | c :: ':' :: '\\' :: rest => c.isAlpha && segTail '\\' (String.mk rest)
   | _ => false)
  || (match s.toList with
      | '\\' :: '\\' :: rest => segTail '\\' (String.mk rest)
      | _ => false)

/-- The pattern `isUnixPath` of parse-path
(`^(\/(seg\/)*seg?|\.{1,2}(\/(seg\/)*seg?)?)$`). -/
def isUnixPathB (s : String) : Bool :=
  (jsStartsWith s "/" && segTail '/' (jsDrop s 1))
    || s = "." || s = ".."
    || (jsStartsWith s "../" && segTail '/' (jsDrop s 3))
    || (jsStartsWith s "./" && segTail '/' (jsDrop s 2))

/-- The pattern `isRelativePath` of parse-path
(`^[^<>:"/\\|?*]+(\/[^<>:"/\\|?*]+)*\/?$`). -/
def isRelativePathB (s : String) : Bool :=
  let parts := jsSplit s (· = '/')
  match parts with
  | [] => false
  | p0 :: restParts =>
    p0 ≠ "" && p0.toList.all plainPathChar &&
      (restParts.dropLast.all fun p => p ≠ "" && p.toList.all plainPathChar) &&
      (match restParts.getLast? with
       | none => true
       | some l => l = "" || (l ≠ "" && l.toList.all plainPathChar))

/-- Model of `URLSearchParams` iteration: split the query on `&`,
dropping empty pieces; each piece splits at its first `=`; `+` becomes
a space (percent-decoding is left out of the model; no theorem reads
query values). -/
def searchPairs (search : String) : List (String × String) :=
  ((jsSplit (jsDrop search 1) (· = '&')).filter (· ≠ "")).map fun kv =>
    let l := kv.toList
    let k := l.takeWhile (· ≠ '=')
    let v := if k.length < l.length then l.drop (k.length + 1) else []
    (String.mk (k.map fun c => if c = '+' then ' ' else c),
     String.mk (v.map fun c => if c = '+' then ' ' else c))

/-- Model of `Object.fromEntries` on string pairs: first-occurrence
order, later values overwrite earlier ones. -/
def fromEntries (l : List (String × String)) : List (String × String) :=
  l.foldl
    (fun acc kv =>
      if acc.any (·.1 = kv.1) then
        acc.map fun p => if p.1 = kv.1 then (p.1, kv.2) else p
      else acc ++ [kv])
    []

/-- The result record of `parsePath` (src/unnamed/part_004,
`ParsedPath`): `protocol` and `port` start out `null` (`none`); `user`
is an `Option` because parse-url's git-ssh branch can assign the
`undefined` capture of its second alternative to it. -/
structure ParsedPath where
  protocols : List String
  protocol : Option String
  port : Option String
  resource : String
  host : String
  user : Option String
  password : String
  pathname : String
  hash : String
  search : String
  href : String
  query : List (String × String)
  parse_failed : Bool
deriving Repr, DecidableEq

/-- Embedding of `parsePath` from src/unnamed/part_004: on a successful `new URL`
the components are copied off the URL object; on failure the input is
classified as Windows / Unix / relative file path (then `file` with the
path as pathname) or as a genuine parse failure (`parse_failed`). -/
def parsePath (path : String) : ParsedPath :=
  match jsURLParse path with
  | some parsed =>
    let protos := protocolsList (.url parsed)
    { protocols := protos
      protocol := protos.head?
      port := some parsed.port
      resource := parsed.hostname
      host := parsed.host
      user := some parsed.username
      password := parsed.password
      pathname := parsed.pathname
      hash := parsed.hash.drop 1
      search := parsed.search.drop 1
      href := parsed.href
      query := fromEntries (searchPairs parsed.search)
      parse_failed := false }
  | none =>
    let isLikelyFilePath := isWindowsPathB path || isUnixPathB path
      || isRelativePathB path
    { protocols := ["file"]
      protocol := some "file"
      port := some ""
      resource := ""
      host := ""
      user := some ""
      password := ""
      pathname := if isLikelyFilePath then path else ""
      hash := ""
      search := ""
      href := path
      query := []
      parse_failed := !isLikelyFilePath }

/-- First character of the user group of parse-url's `GIT_REPOSITORY`
pattern (`[a-zA-Z_]`). -/
def gitUserStart (c : Char) : Bool := c.isAlpha || c = '_'

/-- Continuation characters of the user group (`[a-zA-Z0-9_-]`). -/
def gitUserChar (c : Char) : Bool := c.isAlphanum || c = '_' || c = '-'

/-- The host class of the `GIT_REPOSITORY` pattern (`[\w.\-@]`). -/
def gitHostChar (c : Char) : Bool := c.isAlphanum || c = '_' || c = '.'
  || c = '-' || c = '@'

/-- JavaScript `\s` whitespace, restricted to the ASCII part the model
needs. -/
def jsSpaceChar (c : Char) : Bool :=
  c = ' ' || c = '\t' || c = '\n' || c = '\r' || c = '\x0b' || c = '\x0c'

/-- The path class of the `GIT_REPOSITORY` pattern
(`[\~.\w\-_/,\s]`). -/
def gitPathChar (c : Char) : Bool := c = '~' || c = '.' || c.isAlphanum
  || c = '_' || c = '-' || c = '/' || c = ',' || jsSpaceChar c

/-- Hexadecimal digit (`[0-9A-Fa-f]`). -/
def hexChar (c : Char) : Bool :=
  c.isDigit || ('A' ≤ c ∧ c ≤ 'F') || ('a' ≤ c ∧ c ≤ 'f')

/-- The lazy path group of the `GIT_REPOSITORY` pattern,
`(([\~.\w\-_/,\s]|%[0-9A-Fa-f]{2})+?(?:\.git|\/)?)$`, applied after at
least one repetition has been consumed: at each point the engine first
tries to close the match with `.git`, `/` or nothing followed by the
end of input, and only otherwise consumes one more repetition (a path
character, or a percent escape when the next character is `%`, which
the path class excludes). -/
def gitPathLoop : Nat → List Char → List Char → Option (List Char)
  | _, consumed, [] => some consumed
  | _, consumed, ['.', 'g', 'i', 't'] => some (consumed ++ ['.', 'g', 'i', 't'])
  | _, consumed, ['/'] => some (consumed ++ ['/'])
  | 0, _, _ => none
  | n + 1, consumed, t =>
    match t with
    | '%' :: h1 :: h2 :: r =>
      if hexChar h1 && hexChar h2 then
        gitPathLoop n (consumed ++ ['%', h1, h2]) r
      else none
    | c :: r =>
      if gitPathChar c then gitPathLoop n (consumed ++ [c]) r else none
    | [] => none

/-- The whole path group: consume the mandatory first repetition, then
run the lazy loop. -/
def gitPathGroup (t : List Char) : Option String :=
  match t with
  | '%' :: h1 :: h2 :: r =>
    if hexChar h1 && hexChar h2 then
      (gitPathLoop r.length ['%', h1, h2] r).map String.mk
    else none
  | c :: r =>
    if gitPathChar c then (gitPathLoop r.length [c] r).map String.mk
    else none
  | [] => none

/-- Host-then-path tail of the `GIT_REPOSITORY` pattern:
`([\w.\-@]+)[/:]path$`.  The host run is greedy, backtracking one
character at a time, so the longest host whose following character is
`/` or `:` and whose remainder matches the path group wins. -/
def gitHostLoop : Nat → List Char → Option (String × String)
  | 0, _ => none
  | len + 1, l =>
    if (l.take (len + 1)).length = len + 1
        ∧ (l.take (len + 1)).all gitHostChar then
      match l.drop (len + 1) with
      | d :: t =>
        if d = '/' ∨ d = ':' then
          match gitPathGroup t with
          | some p => some (String.mk (l.take (len + 1)), p)
          | none => gitHostLoop len l
        else gitHostLoop len l
      | [] => gitHostLoop len l
    else gitHostLoop len l

/-- Try host and path starting at `l`. -/
def gitHostPath (l : List Char) : Option (String × String) :=
  gitHostLoop l.length l

/-- The user alternative `([a-zA-Z_][a-zA-Z0-9_-]{0,31})@` of the
`GIT_REPOSITORY` pattern, greedy over the counted repetition: try the
longest user first, each candidate requiring a following `@`. -/
def gitUserLoop (c : Char) (r : List Char) : Nat → Option (String × String × String)
  | 0 =>
    match r with
    | '@' :: rest => (gitHostPath rest).map fun hp => (String.mk [c], hp.1, hp.2)
    | _ => none
  | k + 1 =>
    (if (r.take (k + 1)).length = k + 1 ∧ (r.take (k + 1)).all gitUserChar then
      match r.drop (k + 1) with
      | '@' :: rest =>
        (gitHostPath rest).map fun hp =>
          (String.mk (c :: r.take (k + 1)), hp.1, hp.2)
      | _ => none
    else none).orElse fun () => gitUserLoop c r k

/-- The `https?:\/\/` alternative of the `GIT_REPOSITORY` pattern. -/
def gitHttpAlt (l : List Char) : Option (String × String) :=
  match l with
  | 'h' :: 't' :: 't' :: 'p' :: 's' :: ':' :: '/' :: '/' :: rest => gitHostPath rest
  | 'h' :: 't' :: 't' :: 'p' :: ':' :: '/' :: '/' :: rest => gitHostPath rest
  | _ => none

/-- parse-url.ts's anchored `GIT_REPOSITORY` pattern
`^(?:([a-zA-Z_][a-zA-Z0-9_-]{0,31})@|https?:\/\/)([\w.\-@]+)[/:](path)$`:
returns the three capture groups (the user group is `none` on the
`https?://` alternative, mirroring its `undefined` capture). -/
def gitRepoMatch (s : String) : Option (Option String × String × String) :=
  let userAlt : Option (Option String × String × String) :=
    match s.toList with
    | c :: r =>
      if gitUserStart c then
        (gitUserLoop c r (min 31 r.length)).map fun u => (some u.1, u.2.1, u.2.2)
      else none
    | [] => none
  match userAlt with
  | some x => some x
  | none => (gitHttpAlt s.toList).map fun hp => ((none : Option String), hp.1, hp.2)

/-- A `string | RegExp` query-parameter filter of normalize-url.ts;
RegExp filters are modelled by their test predicate. -/
inductive QueryFilter where
  | str (s : String)
  | regex (test : String → Bool)

/-- A `(string | RegExp)[] | boolean` option value of
normalize-url.ts. -/
inductive FiltersOrBool where
  | bool (b : Bool)
  | filters (l : List QueryFilter)

/-- Embedding of `NormalizeOptions` of normalize-url.ts; absent fields are `none`
(`undefined`), so the spread with the defaults can be modelled
per-field. -/
structure NormalizeOptions where
  defaultProtocol : Option String := none
  normalizeProtocol : Option Bool := none
  forceHttp : Option Bool := none
  forceHttps : Option Bool := none
  stripAuthentication : Option Bool := none
  stripHash : Option Bool := none
  stripTextFragment : Option Bool := none
  stripWWW : Option Bool := none
  removeQueryParameters : Option FiltersOrBool := none
  keepQueryParameters : Option (List QueryFilter) := none
  removeTrailingSlash : Option Bool := none
  removeSingleSlash : Option Bool := none
  removeDirectoryIndex : Option FiltersOrBool := none
  removeExplicitPort : Option Bool := none
  sortQueryParameters : Option Bool := none
  stripProtocol : Option Bool := none

/-- JavaScript `\w`. -/
def isWordCharJS (c : Char) : Bool := c.isAlphanum || c = '_'

/-- Test of the default `removeQueryParameters` filter
`/^utm_\w+/i`. -/
def utmFilterTest (name : String) : Bool :=
  match name.toList with
  | c1 :: c2 :: c3 :: c4 :: c5 :: _ =>
    asciiLower c1 = 'u' && asciiLower c2 = 't' && asciiLower c3 = 'm'
      && c4 = '_' && isWordCharJS c5
  | _ => false

/-- Test of the default `removeDirectoryIndex` filter
`/^index\.[a-z]+$/`. -/
def dirIndexTest (name : String) : Bool :=
  match name.toList with
  | 'i' :: 'n' :: 'd' :: 'e' :: 'x' :: '.' :: rest =>
    rest ≠ [] && rest.all fun c => 'a' ≤ c && c ≤ 'z'
  | _ => false

/-- Embedding of `testParameter` of normalize-url.ts on a present filter list. -/
def testParameterArr (name : String) (filters : List QueryFilter) : Bool :=
  filters.any fun f =>
    match f with
    | .str s => s = name
    | .regex t => t name

/-- Embedding of `testParameter` of normalize-url.ts: the source dereferences
`filters!` unconditionally, so an absent (`undefined`) filter list
throws a `TypeError` at run time. -/
def testParameter (name : String) (filters : Option (List QueryFilter)) :
    Except JSError Bool :=
  match filters with
  | none => .error (.typeError "Cannot read properties of undefined")
  | some fs => .ok (testParameterArr name fs)

/-- Case-insensitive ASCII prefix test (for `/^data:/i`). -/
def startsWithCI (s pre : String) : Bool :=
  asciiLowerStr (String.mk (s.toList.take pre.length)) = asciiLowerStr pre

/-- The supported protocols set of normalize-url.ts. -/
def supportedProtocols : List String := ["https:", "http:", "file:"]

/-- Embedding of `hasCustomProtocol` of normalize-url.ts: the parsed protocol ends
with a colon, contains a dot and is not in the supported set; parse
failures yield false. -/
def hasCustomProtocol (urlString : String) : Bool :=
  match jsURLParse urlString with
  | some u =>
    jsEndsWith u.protocol ":" && jsContainsChar u.protocol '.'
      && !supportedProtocols.contains u.protocol
  | none => false

/-- Embedding of `normalizeDataURL` of normalize-url.ts: destructures the data URL
with `^data:([^,]*?),([^#]*?)(?:#(.*))?$` (no comma means the match
fails and an `Invalid URL` error is thrown), normalizes the media type
and reassembles.  The comparison of the lowercased charset against the
uppercase constant `US-ASCII` is kept as written, so it never strips
the default charset. -/
def normalizeDataURL (urlString : String) (stripHash : Bool) :
    Except JSError String :=
  if ¬ jsStartsWith urlString "data:" then
    .error (.error ("Invalid URL: " ++ urlString))
  else
    let l := urlString.toList.drop 5
    let ty := l.takeWhile (· ≠ ',')
    if ty.length = l.length then .error (.error ("Invalid URL: " ++ urlString))
    else
      let rest2 := l.drop (ty.length + 1)
      let dataPart := String.mk (rest2.takeWhile (· ≠ '#'))
      let hash0 := String.mk ((rest2.drop dataPart.length).drop 1)
      let hash := if stripHash then "" else hash0
      let mediaType0 := jsSplit (String.mk ty) (· = ';')
      let isBase64 := mediaType0.getLastD "" = "base64"
      let mediaType := if isBase64 then mediaType0.dropLast else mediaType0
      let mimeType := asciiLowerStr (mediaType.headD "")
      let attributes := (mediaType.drop 1).filterMap fun attr =>
        let parts := (jsSplit attr (· = '=')).map jsTrim
        let key := parts.headD ""
        let value0 := parts.getD 1 ""
        let value := if key = "charset" then asciiLowerStr value0 else value0
        if key = "charset" ∧ value = "US-ASCII" then none
        else some (key ++ (if value ≠ "" then "=" ++ value else ""))
      let normalizedMediaType :=
        attributes ++ (if isBase64 then ["base64"] else [])
      let normalizedMediaType :=
        if normalizedMediaType ≠ [] ∨ (mimeType ≠ "" ∧ mimeType ≠ "text/plain")
        then mimeType :: normalizedMediaType
        else normalizedMediaType
      .ok ("data:" ++ jsIntercalate ";" normalizedMediaType ++ ","
        ++ (if isBase64 then jsTrim dataPart else dataPart)
        ++ (if hash ≠ "" then "#" ++ hash else ""))

/-- Removal of the text fragment, `hash.replace(/#?~:text.*?$/i, '')`:
delete from the leftmost occurrence of an optional `#` followed by
`~:text` (ASCII case-insensitive) to the end. -/
def removeTextFragment (hash : String) : String :=
  let rec go (pre : List Char) (l : List Char) : String :=
    match l with
    | [] => String.mk pre.reverse
    | c :: r =>
      if c = '#' ∧ startsWithCI (String.mk r) "~:text" then
        String.mk pre.reverse
      else if startsWithCI (String.mk (c :: r)) "~:text" then
        String.mk pre.reverse
      else go (c :: pre) r
  go [] hash.toList

/-- The scheme class `[a-z\d+\-.]` of normalize-url.ts's pathname
protocol pattern. -/
def isProtoClassChar (c : Char) : Bool :=
  ('a' ≤ c && c ≤ 'z') || c.isDigit || c = '+' || c = '-' || c = '.'

/-- Replace every run of two or more slashes by a single slash
(`replace(/\/{2,}/g, '/')`). -/
def compressSlashes : List Char → List Char
  | [] => []
  | '/' :: '/' :: r => compressSlashes ('/' :: r)
  | c :: r => c :: compressSlashes r
termination_by l => l.length

/-- Leftmost match of `\b[a-z\d+\-.]{1,50}:\/\//` from the current
position: returns the offset of the match and its total length.  The
scheme class excludes `:`, so only the maximal class run (of length at
most 50) can be followed by `://`. -/
def protoScan (prev : Option Char) : List Char → Option (Nat × Nat)
  | [] => none
  | c :: r =>
    let boundaryOK :=
      if isWordCharJS c then
        match prev with
        | none => true
        | some p => ¬ isWordCharJS p
      else
        match prev with
        | some p => isWordCharJS p
        | none => false
    let here : Option (Nat × Nat) :=
      if isProtoClassChar c && boundaryOK then
        let run := (c :: r).takeWhile isProtoClassChar
        if run.length ≤ 50 then
          match (c :: r).drop run.length with
          | ':' :: '/' :: '/' :: _ => some (0, run.length + 3)
          | _ => none
        else none
      else none
    match here with
    | some m => some m
    | none => (protoScan (some c) r).map fun m => (m.1 + 1, m.2)

/-- The pathname rewriting loop of normalize-url.ts: between protocol
occurrences, duplicate slashes are compressed; the protocol substrings
themselves are copied verbatim. -/
def pathCompressLoop : Nat → Option Char → List Char → List Char
  | 0, _, l => compressSlashes l
  | fuel + 1, prev, l =>
    match protoScan prev l with
    | none => compressSlashes l
    | some (s, len) =>
      compressSlashes (l.take s) ++ (l.drop s).take len
        ++ pathCompressLoop fuel (some '/') ((l.drop s).drop len)

/-- The whole pathname rewrite of normalize-url.ts. -/
def pathCompress (pathname : String) : String :=
  String.mk (pathCompressLoop pathname.toList.length none pathname.toList)

/-- Model of assigning `urlObject.pathname`: the WHATWG setter
re-anchors a relative path at `/` for URLs with an authority. -/
def setPathname (u : URLRec) (p : String) : URLRec :=
  { u with pathname :=
      if u.hasAuthority ∧ ¬ jsStartsWith p "/" ∧ p ≠ "" then "/" ++ p else p }

/-- Serialize query pairs back into a `search` string (the model omits
the percent-encoding the platform serializer applies). -/
def searchOfPairs (pairs : List (String × String)) : String :=
  if pairs = [] then ""
  else "?" ++ jsIntercalate "&" (pairs.map fun kv => kv.1 ++ "=" ++ kv.2)

/-- Model of `decodeURIComponent`, restricted to ASCII percent escapes:
multi-byte escapes and malformed escapes fail (the caller ignores the
failure). -/
def decodeURIComponentModel : List Char → Option (List Char)
  | [] => some []
  | '%' :: h1 :: h2 :: r =>
    if hexChar h1 && hexChar h2 then
      let hv : Char → Nat := fun c =>
        if c.isDigit then c.toNat - 0x30
        else if 'a' ≤ c then c.toNat - 0x61 + 10
        else c.toNat - 0x41 + 10
      let v := 16 * hv h1 + hv h2
      if v < 0x80 then (decodeURIComponentModel r).map (Char.ofNat v :: ·)
      else none
    else none
  | '%' :: _ => none
  | c :: r => (decodeURIComponentModel r).map (c :: ·)

/-- Remove one trailing dot of the hostname
(`hostname.replace(/\.$/, '')`). -/
def removeTrailingDot (h : String) : String :=
  if jsEndsWith h "." then String.mk h.toList.dropLast else h

/-- Embedding of `normalizeUrl` from normalize-url.ts.  Two quirks of the source are
kept as written: the `defaultProtocol` colon fix-up assigns the string
to itself and is a no-op, and `isRelativeUrl` is the conjunction of a
negation with a regex *object* — always truthy — so the
protocol-prefix replace runs exactly for protocol-relative (`//`)
inputs, where the pattern's second alternative replaces the leading
`//` by the default protocol.  The `stripWWW` branch of the source
discards the result of its `replace`, so the hostname only loses a
trailing dot. -/
def normalizeUrl (urlString : String) (options : NormalizeOptions := {}) :
    Except JSError String :=
  let defaultProtocol := options.defaultProtocol.getD "http:"
  let normalizeProtocol := options.normalizeProtocol.getD true
  let forceHttp := options.forceHttp.getD false
  let forceHttps := options.forceHttps.getD false
  let stripAuthentication := options.stripAuthentication.getD true
  let stripHash := options.stripHash.getD false
  let stripTextFragment := options.stripTextFragment.getD true
  let removeQueryParameters :=
    options.removeQueryParameters.getD (.filters [.regex utmFilterTest])
  let keepQueryParameters := options.keepQueryParameters
  let removeTrailingSlash := options.removeTrailingSlash.getD true
  let removeSingleSlash := options.removeSingleSlash.getD true
  let removeDirectoryIndex := options.removeDirectoryIndex.getD (.bool false)
  let removeExplicitPort := options.removeExplicitPort.getD false
  let sortQueryParameters := options.sortQueryParameters.getD true
  let stripProtocol := options.stripProtocol.getD false
  let urlString := jsTrim urlString
  if startsWithCI urlString "data:" then normalizeDataURL urlString stripHash
  else if hasCustomProtocol urlString then .ok urlString
  else
    let hasRelativeProtocol := jsStartsWith urlString "//"
    let urlString :=
      if hasRelativeProtocol then defaultProtocol ++ jsDrop urlString 2
      else urlString
    match jsURLParse urlString with
    | none => .error (.typeError ("Invalid URL: " ++ urlString))
    | some urlObject =>
      if forceHttp ∧ forceHttps then
        .error (.error
          "The forceHttp and forceHttps options can not be used together.")
      else
        let urlObject :=
          if forceHttp ∧ urlObject.protocol = "https:" then
            { urlObject with protocol := "http:" }
          else urlObject
        let urlObject :=
          if forceHttps ∧ urlObject.protocol = "http:" then
            { urlObject with protocol := "https:" }
          else urlObject
        let urlObject :=
          if stripAuthentication then
            { urlObject with username := "", password := "" }
          else urlObject
        let urlObject :=
          if stripHash then { urlObject with hash := "" }
          else if stripTextFragment then
            { urlObject with hash := removeTextFragment urlObject.hash }
          else urlObject
        let urlObject :=
          if urlObject.pathname ≠ "" then
            { urlObject with pathname := pathCompress urlObject.pathname }
          else urlObject
        let dirFilters : Option (List QueryFilter) :=
          match removeDirectoryIndex with
          | .bool true => some [.regex dirIndexTest]
          | .bool false => none
          | .filters fs => if fs.length > 0 then some fs else none
        let urlObject :=
          match dirFilters with
          | some fs =>
            let pathComponents := jsSplit urlObject.pathname (· = '/')
            let lastComponent := pathComponents.getLastD ""
            if testParameterArr lastComponent fs then
              setPathname urlObject
                (jsIntercalate "/" (pathComponents.dropLast.drop 1) ++ "/")
            else urlObject
          | none => urlObject
        let urlObject :=
          if urlObject.hostname ≠ "" then
            { urlObject with hostname := removeTrailingDot urlObject.hostname }
          else urlObject
        let queryStep : Except JSError URLRec :=
          match removeQueryParameters with
          | .filters _ =>
            let pairs := searchPairs urlObject.search
            if pairs = [] then .ok urlObject
            else
              match keepQueryParameters with
              | none => .error (.typeError "Cannot read properties of undefined")
              | some fs =>
                let kept := pairs.filter fun kv => testParameterArr kv.1 fs
                .ok { urlObject with search := searchOfPairs kept }
          | .bool _ => .ok urlObject
        match queryStep with
        | .error e => .error e
        | .ok urlObject =>
          let urlObject :=
            if sortQueryParameters then
              let sorted := (searchPairs urlObject.search).mergeSort
                fun a b => decide (a.1 ≤ b.1)
              let u2 := { urlObject with search := searchOfPairs sorted }
              match decodeURIComponentModel u2.search.toList with
              | some d => { u2 with search := String.mk d }
              | none => u2
            else urlObject
          let urlObject :=
            if removeTrailingSlash then
              { urlObject with pathname := removeFirstDollar urlObject.pathname }
            else urlObject
          let urlObject :=
            if removeExplicitPort ∧ urlObject.port ≠ "" then
              { urlObject with port := "" }
            else urlObject
          let newUrl := urlObject.href
          let newUrl :=
            if ¬ removeSingleSlash ∧ urlObject.pathname = "/"
                ∧ ¬ jsEndsWith newUrl "/" ∧ urlObject.hash = "" then
              removeFirstDollar newUrl
            else newUrl
          let newUrl :=
            if (removeTrailingSlash ∨ urlObject.pathname = "/")
                ∧ urlObject.hash = "" ∧ removeSingleSlash then
              removeFirstDollar newUrl
            else newUrl
          let newUrl :=
            if hasRelativeProtocol ∧ ¬ normalizeProtocol then
              if jsStartsWith newUrl "http://" then "//" ++ jsDrop newUrl 7
              else newUrl
            else newUrl
          let newUrl :=
            if stripProtocol then
              if jsStartsWith newUrl "https://" then jsDrop newUrl 8
              else if jsStartsWith newUrl "https:://" then jsDrop newUrl 9
              else if jsStartsWith newUrl "//" then jsDrop newUrl 2
              else newUrl
            else newUrl
          .ok newUrl

/-- The `normalize` parameter of `parseUrl`
(`boolean | NormalizeURLOptions`). -/
inductive NormalizeArg where
  | ofBool (b : Bool)
  | ofOpts (o : NormalizeOptions)

/-- The constant `parseUrl.MAX_INPUT_LENGTH` (parser/parse-url.ts). -/
def parseUrlMaxInputLength : Nat := 2048

/-- The normalization step of `parseUrl`: `false` is falsy (skip),
`true` is replaced by the options object with `stripHash: false`, and
an options object (always truthy) is passed through. -/
def parseUrlNormalize (u : String) : NormalizeArg → Except JSError String
  | .ofBool false => .ok u
  | .ofBool true => normalizeUrl u { stripHash := some false }
  | .ofOpts o => normalizeUrl u o

/-- Embedding of `parseUrl` from parser/parse-url.ts: rejects non-strings, blank and
oversized inputs, optionally normalizes, parses with `parsePath`, and
on parse failure falls back to the `GIT_REPOSITORY` pattern, rewriting
the result into an ssh URL or throwing. -/
def parseUrl (url : UrlVal) (normalize : NormalizeArg := .ofBool false) :
    Except JSError ParsedPath :=
  match url with
  | .other _ => .error (.error "Invalid URL.")
  | .str u =>
    if jsTrim u = "" then .error (.error "Invalid URL.")
    else if jsLength u > parseUrlMaxInputLength then
      .error (.error
        "Input exceeds maximum length. If needed, change the value of parseUrl.MAX_INPUT_LENGTH.")
    else
      match parseUrlNormalize u normalize with
      | .error e => .error e
      | .ok u2 =>
        let parsed := parsePath u2
        if parsed.parse_failed then
          match gitRepoMatch parsed.href with
          | some m =>
            .ok { parsed with
                  protocols := ["ssh"]
                  protocol := some "ssh"
                  resource := m.2.1
                  host := m.2.1
                  user := m.1
                  pathname := "/" ++ m.2.2
                  parse_failed := false }
          | none => .error (.error "URL parsing failed.")
        else .ok parsed

/-- The function `isSSH` on protocol arrays (is/is-ssh.ts): `ssh` or `rsync` is
listed. -/
def isSSHList (input : List String) : Bool :=
  input.contains "ssh" || input.contains "rsync"

/-- JavaScript `String.prototype.indexOf` for a substring: first index
or -1. -/
def jsIndexOfSub (s sub : String) : Int :=
  match (List.range (s.toList.length + 1)).find? fun i =>
      (s.toList.drop i).take sub.length = sub.toList with
  | some i => (i : Int)
  | none => -1

/-- JavaScript `String.prototype.indexOf` for a character. -/
def jsIndexOfChar (s : String) (c : Char) : Int :=
  match s.toList.findIdx? (· = c) with
  | some i => (i : Int)
  | none => -1

/-- JavaScript `String.prototype.substring(start)` with a clamped
start index. -/
def jsSubstringFrom (s : String) (i : Int) : String :=
  String.mk (s.toList.drop i.toNat)

/-- Test of is-ssh.ts's `urlPortPattern`
(`/\.([a-zA-Z\d]+):(\d+)\/?/`): somewhere a dot, a non-empty
alphanumeric run, a colon and at least one digit. -/
def urlPortTestL : List Char → Bool
  | [] => false
  | c :: r =>
    (c = '.' &&
      (let run := r.takeWhile (·.isAlphanum)
       run ≠ [] &&
        match r.drop run.length with
        | ':' :: d :: _ => d.isDigit
        | _ => false))
    || urlPortTestL r

/-- The function `isSSH` on strings (is/is-ssh.ts): the input's protocols, else an
SSH-looking `user@host:path` shape — no host:port pattern and an `@`
after the last-considered positions (`indexOf` comparison), on the
input with everything up to `://` removed. -/
def isSSHStr (input : String) : Bool :=
  let prots := protocolsList (.str input)
  let input2 := jsSubstringFrom input (jsIndexOfSub input "://" + 3)
  if isSSHList prots then true
  else
    !urlPortTestL input2.toList
      && jsIndexOfChar input2 '@' > jsIndexOfChar input2 ':'

/-- The result of `gitUp` (git/git-up.ts): the parsed URL with its
`protocol`, `protocols` and `href` rewritten, plus the extracted
`token` (an `Option`, since `output.user` can be `undefined`). -/
structure GitUp where
  parsed : ParsedPath
  token : Option String
deriving Repr, DecidableEq

/-- Embedding of `gitUp` from git/git-up.ts: parse, extract an OAuth token, settle
the protocol (ssh when the protocols or — with no protocols detected —
the raw input look like SSH; else the first protocol; else `file`), and
drop the first `$` of the href (`replace(/\$/, '')`). -/
def gitUp (input : String) : Except JSError GitUp :=
  match parseUrl (.str input) (.ofBool false) with
  | .error e => .error e
  | .ok p0 =>
    let token : Option String :=
      if p0.password = "x-oauth-basic" then p0.user
      else if p0.user = some "x-token-auth" then some p0.password
      else some ""
    let sshCond :=
      isSSHList p0.protocols || (p0.protocols.length = 0 && isSSHStr input)
    let pp : String × List String :=
      if sshCond then ("ssh", p0.protocols)
      else if p0.protocols.length ≠ 0 then (p0.protocols.headD "", p0.protocols)
      else ("file", ["file"])
    .ok { parsed := { p0 with
            protocol := some pp.1
            protocols := pp.2
            href := removeFirstDollar p0.href }
          token := token }

/-- Whether an `Except` is an error (a thrown exception in the
model). -/
def exErr : Except JSError α → Bool
  | .error _ => true
  | .ok _ => false

/-- The options record of `prettyMilliseconds` (time/pretty-ms.ts).
The source field `colonNotation` is modelled as `colonNotationMode`;
numeric fields are `Option`s because the source tests them for
presence with `typeof`. -/
structure PrettyMsOptions where
  colonNotationMode : Bool := false
  compact : Bool := false
  formatSubMilliseconds : Bool := false
  hideSeconds : Bool := false
  hideYear : Bool := false
  hideYearAndDays : Bool := false
  keepDecimalsOnWholeSeconds : Bool := false
  millisecondsDecimalDigits : Option Nat := none
  separateMilliseconds : Bool := false
  secondsDecimalDigits : Option Nat := none
  unitCount : Option Nat := none
  verbose : Bool := false
deriving Repr, DecidableEq

/-- The in-place writes `prettyMilliseconds` performs on its
caller-supplied options object (time/pretty-ms.ts): a truthy
`colonNotation` clears `compact`, `formatSubMilliseconds`,
`separateMilliseconds` and `verbose`; afterwards a truthy `compact`
sets `unitCount`, `secondsDecimalDigits` and
`millisecondsDecimalDigits`.  These are the only writes to `options`
in the whole function body — everything after only reads it — so this
is exactly the state of the caller's object after the call returns. -/
def prettyMsOptionEffects (options : PrettyMsOptions) : PrettyMsOptions :=
  let options :=
    if options.colonNotationMode then
      { options with compact := false, formatSubMilliseconds := false,
                     separateMilliseconds := false, verbose := false }
    else options
  let options :=
    if options.compact then
      { options with unitCount := some 1, secondsDecimalDigits := some 0,
                     millisecondsDecimalDigits := some 0 }
    else options
  options

/-- The argument shapes `prettyMilliseconds` distinguishes before any
write happens: a finite number, a non-finite number (rejected), or a
bigint. -/
inductive PrettyMsInput where
  | finiteNum
  | nonFiniteNum
  | bigint
deriving Repr, DecidableEq

/-- The caller-visible options object after `prettyMilliseconds(m,
options)` returns: the `TypeError` for non-finite numbers is raised
before any write, and otherwise the option writes above have been
applied to the caller's object (the numeric formatting of the result
string is independent of this frame effect). -/
def prettyMillisecondsOptionsAfter (m : PrettyMsInput)
    (options : PrettyMsOptions) : Except JSError PrettyMsOptions :=
  match m with
  | .nonFiniteNum => .error (.typeError "Expected a finite number or bigint")
  | _ => .ok (prettyMsOptionEffects options)

/-- The closure state of a wrapper built by `onetime` (onetime.ts):
the shared `callCount` (also mirrored into the module's
`calledFunctions` WeakMap), the cached `returnValue`, whether the
underlying function reference has been released, and — for the
embedding — how often the underlying function has actually been
invoked. -/
structure OnetimeState (α : Type) where
  callCount : Nat
  returnValue : Option α
  fnReleased : Bool
  invocations : Nat
deriving Repr, DecidableEq

/-- The state right after `onetime(function_, options)` returned the
wrapper: nothing called yet. -/
def onetimeInit : OnetimeState α :=
  { callCount := 0, returnValue := none, fnReleased := false,
    invocations := 0 }

/-- One call of the wrapper (onetime.ts): bump the call counter; on
the first call run the underlying function (recording the invocation
and releasing the reference); on later calls throw when
`options.throw` is set, else return the cached value.  `g` maps the
invocation index to the underlying function's result, so a spurious
second invocation would be observable in the result and in
`invocations`. -/
def onetimeCall (throwOpt : Bool) (g : Nat → α) (st : OnetimeState α) :
    Except JSError (Option α) × OnetimeState α :=
  let callCount := st.callCount + 1
  if callCount = 1 then
    let r := g st.invocations
    (.ok (some r),
     { callCount := callCount, returnValue := some r, fnReleased := true,
       invocations := st.invocations + 1 })
  else if throwOpt then
    (.error (.error "Function can only be called once"),
     { st with callCount := callCount })
  else
    (.ok st.returnValue, { st with callCount := callCount })

/-- The wrapper state after `n` calls. -/
def onetimeRun (throwOpt : Bool) (g : Nat → α) : Nat → OnetimeState α
  | 0 => onetimeInit
  | n + 1 => (onetimeCall throwOpt g (onetimeRun throwOpt g n)).2

/-- The module-level mutable state of the embedded library, shared by
all calls: the only such cell among the embedded modules is onetime's
`calledFunctions` WeakMap, modelled as an association of wrapper
identities to call counts. -/
structure LibStore where
  calledFunctions : List (Nat × Nat)
deriving Repr, DecidableEq

/-- The function `stringWidth` as a store transformer.  The source builds its
segmenter and regexes locally on every call and references no
module-level mutable, so its embedding neither reads nor writes the
shared store. -/
def stringWidthSt (env : WidthEnv) (v : CPVal) (o : StringWidthOptions)
    (st : LibStore) : Nat × LibStore :=
  (stringWidth env v o, st)

/-- The function `stripAnsi` as a store transformer; its regex is created afresh on
each call (`const regex = ansiRegex()`), so no `lastIndex` survives a
call. -/
def stripAnsiSt (v : CPVal) (st : LibStore) :
    Except JSError CPString × LibStore :=
  (stripAnsiJS v, st)

/-- The function `parseUrl` as a store transformer; its `GIT_REPOSITORY` regex is a
per-call local. -/
def parseUrlSt (v : UrlVal) (n : NormalizeArg) (st : LibStore) :
    Except JSError ParsedPath × LibStore :=
  (parseUrl v n, st)

/-- The function `gitUp` as a store transformer. -/
def gitUpSt (s : String) (st : LibStore) :
    Except JSError GitUp × LibStore :=
  (gitUp s, st)

/-- C4: `eastAsianWidth(codePoint, options)` throws a `TypeError`
exactly when `codePoint` is not a safe integer, and otherwise returns 2
when the code point's East Asian Width category is Fullwidth or Wide,
or is Ambiguous while `options.ambiguousAsWide` is true, and returns 1
in every other case. -/
theorem eastAsianWidth_typeerror_and_width (n : JSNum)
    (o : EastAsianWidthOptions) :
    (isSafeInteger n = false →
      eastAsianWidth n o = .error (.typeError "Expected a code point.")) ∧
    (isSafeInteger n = true →
      eastAsianWidth n o =
        .ok (if getCategory n.val = .fullwidth ∨ getCategory n.val = .wide
              ∨ (o.ambiguousAsWide = true ∧ getCategory n.val = .ambiguous)
            then 2 else 1)) := by
  have hiff : ((isFullWidth n.val || isWide n.val
        || (o.ambiguousAsWide && isAmbiguous n.val)) = true)
      ↔ (getCategory n.val = .fullwidth ∨ getCategory n.val = .wide
          ∨ (o.ambiguousAsWide = true ∧ getCategory n.val = .ambiguous)) := by
    simp [isFullWidth, isWide, isAmbiguous, Bool.or_eq_true, Bool.and_eq_true,
      decide_eq_true_iff, or_assoc]
  constructor
  · intro h
    simp [eastAsianWidth, validate, h]
  · intro h
    by_cases hp : (getCategory n.val = .fullwidth ∨ getCategory n.val = .wide
        ∨ (o.ambiguousAsWide = true ∧ getCategory n.val = .ambiguous))
    · simp [eastAsianWidth, validate, h, hiff.mpr hp, hp]
    · have hcf : ¬ ((isFullWidth n.val || isWide n.val
          || (o.ambiguousAsWide && isAmbiguous n.val)) = true) :=
        fun hc => hp (hiff.mp hc)
      simp [eastAsianWidth, validate, h, hcf, hp]

/-- Witness for C4: concrete evaluations discharging both hypotheses of
`eastAsianWidth_typeerror_and_width`. -/
theorem eastAsianWidth_typeerror_and_width_witness :
    eastAsianWidth (.int 0x3000) {} = .ok 2 ∧
    eastAsianWidth .nonInt {} = .error (.typeError "Expected a code point.") := by
  refine ⟨?_, ?_⟩
  · have h := (eastAsianWidth_typeerror_and_width (.int 0x3000) {}).2 (by decide)
    rw [h, if_pos (by decide)]
  · exact (eastAsianWidth_typeerror_and_width .nonInt {}).1 (by decide)

example : stripAnsi [0x1B, 0x5B, 0x34, 0x6D, 0x61, 0x1B, 0x5B, 0x30, 0x6D]
    = [0x61] := by decide

/-- The ANSI pattern matches nothing whose first code point is not an
escape introducer. -/
theorem ansiPattern_eq_nil (c : Nat) (r : List Nat)
    (h : ansiIntroB c = false) : ansiPattern (c :: r) = [] := by
  simp [ansiPattern, rxSeq, rxChar, h]

/-- No ANSI match starts in a string free of escape introducers. -/
theorem ansiMatchLen_eq_none (s : List Nat)
    (h : ∀ c ∈ s, ansiIntroB c = false) : ansiMatchLen s = none := by
  cases s with
  | nil => rfl
  | cons c r =>
    unfold ansiMatchLen
    rw [ansiPattern_eq_nil c r (h c (List.mem_cons_self c r))]

/-- The replace pass leaves a string free of escape introducers
unchanged. -/
theorem ansiReplaceFuel_eq_self (n : Nat) (s : List Nat)
    (h : ∀ c ∈ s, ansiIntroB c = false) : ansiReplaceFuel n s = s := by
  induction n generalizing s with
  | zero => rfl
  | succ n ih =>
    cases s with
    | nil => rfl
    | cons c r =>
      unfold ansiReplaceFuel
      rw [ansiMatchLen_eq_none (c :: r) h]
      exact congrArg (c :: ·) (ih r fun d hd => h d (List.mem_cons_of_mem c hd))

/-- The function `stripAnsi` is the identity on strings free of escape
introducers. -/
theorem stripAnsi_eq_self (s : CPString)
    (h : ∀ c ∈ s, ansiIntroB c = false) : stripAnsi s = s :=
  ansiReplaceFuel_eq_self s.length s h

/-- C8 counterexample: on the concrete input
`"\u001B[\u001B[31m31m"` the single replace pass removes the inner
escape sequence and juxtaposes `"\u001B["` with `"31m"`, so the result
`"\u001B[31m"` still contains a full ANSI match (of length 5), and a
second application removes it: `stripAnsi` is not idempotent and its
result can contain a substring matched by the library's ANSI pattern,
refuting the claim as stated. -/
theorem stripAnsi_not_ansi_free_cex :
    stripAnsi [0x1B, 0x5B, 0x1B, 0x5B, 0x33, 0x31, 0x6D, 0x33, 0x31, 0x6D]
        = [0x1B, 0x5B, 0x33, 0x31, 0x6D] ∧
    ansiMatchLen
        (stripAnsi [0x1B, 0x5B, 0x1B, 0x5B, 0x33, 0x31, 0x6D, 0x33, 0x31, 0x6D])
        = some 5 ∧
    stripAnsi
        (stripAnsi [0x1B, 0x5B, 0x1B, 0x5B, 0x33, 0x31, 0x6D, 0x33, 0x31, 0x6D])
      ≠ stripAnsi [0x1B, 0x5B, 0x1B, 0x5B, 0x33, 0x31, 0x6D, 0x33, 0x31, 0x6D] := by
  refine ⟨by decide, by decide, by decide⟩

/-- C8 (amended): one replace pass removes every non-overlapping match
scanning left to right, but removal can juxtapose fragments into a new
escape sequence, so idempotence only holds when the result is free of
escape introducers (U+001B, U+009B); `stripAnsi` does throw a
`TypeError` when its argument is not a string. -/
theorem stripAnsi_amended (s : CPString) (t : String)
    (h : ∀ c ∈ stripAnsi s, ansiIntroB c = false) :
    stripAnsi (stripAnsi s) = stripAnsi s ∧
    stripAnsiJS (.other t) = .error (.typeError ("Expected a string, got " ++ t)) :=
  ⟨stripAnsi_eq_self (stripAnsi s) h, rfl⟩

/-- Witness for C8 (amended), at the concrete input `"\u001B[4ma"`. -/
theorem stripAnsi_amended_witness :
    stripAnsi (stripAnsi [0x1B, 0x5B, 0x34, 0x6D, 0x61])
        = stripAnsi [0x1B, 0x5B, 0x34, 0x6D, 0x61] ∧
    stripAnsiJS (.other "number")
        = .error (.typeError ("Expected a string, got " ++ "number")) :=
  stripAnsi_amended [0x1B, 0x5B, 0x34, 0x6D, 0x61] "number" (by decide)

example : stringWidth modelEnv (.str [0x61, 0x62, 0x63]) {} = 3 := by decide

example : stringWidth modelEnv (.str [0x4F60, 0x597D]) {} = 4 := by decide

example : stringWidth modelEnv (.str [0x1F44B]) {} = 2 := by decide

example : stringWidth modelEnv
    (.str [0x1B, 0x5B, 0x33, 0x31, 0x6D, 0x48, 0x69, 0x1B, 0x5B, 0x30, 0x6D])
    {} = 2 := by decide

/-- C1: the claim (and the function's own documentation) says a cluster
whose first code point is a control character contributes width 0, but
the code skips control characters with `codePoint < 0x1F`, so the
control character U+001F (a Cc code point, untouched by the ANSI strip)
falls through to the East Asian Width branch and contributes 1 — on
Node 20+ and on the legacy emoji fallback alike — while its neighbours
U+001E and U+007F contribute 0 as documented. -/
theorem stringWidth_control_char_bug :
    stringWidth modelEnv (.str [0x1F]) {} = 1 ∧
    stringWidth modelEnvLegacy (.str [0x1F]) {} = 1 ∧
    stringWidth modelEnv (.str [0x1E]) {} = 0 ∧
    stringWidth modelEnv (.str [0x7F]) {} = 0 := by
  refine ⟨by decide, by decide, by decide, by decide⟩

/-- C2 counterexample: `parseUrl('data:', true)` throws — the requested
normalization rejects a data URL without a comma — although the input
is a string, non-blank, within the length bound, and its general URL
parse succeeds (`parse_failed` is false), so the claim's list of throw
conditions is not exhaustive once `normalize` is truthy. -/
theorem parseUrl_throw_conditions_cex :
    parseUrl (.str "data:") (.ofBool true)
        = .error (.error "Invalid URL: data:") ∧
    jsTrim "data:" ≠ "" ∧
    jsLength "data:" ≤ parseUrlMaxInputLength ∧
    (parsePath "data:").parse_failed = false :=
  ⟨by rfl, by decide, by decide, by rfl⟩

/-- C2 (amended): `parseUrl(url, normalize)` throws exactly when the
url is not a string, or blank after trimming, or longer than
`parseUrl.MAX_INPUT_LENGTH`, or the requested normalization itself
throws, or the general URL parse of the (possibly normalized) input
fails with the git-SSH pattern not matching; in every other case it
returns a `ParsedURL` whose `parse_failed` field is false. -/
theorem parseUrl_throw_iff_amended (v : UrlVal) (n : NormalizeArg) :
    (exErr (parseUrl v n) = true ↔
      (match v with
       | .other _ => True
       | .str u =>
         jsTrim u = "" ∨ jsLength u > parseUrlMaxInputLength
           ∨ exErr (parseUrlNormalize u n) = true
           ∨ (∃ u2, parseUrlNormalize u n = .ok u2
               ∧ (parsePath u2).parse_failed = true
               ∧ gitRepoMatch (parsePath u2).href = none))) ∧
    (∀ p, parseUrl v n = .ok p → p.parse_failed = false) := by
  cases v with
  | other t => exact ⟨by simp [parseUrl, exErr], by simp [parseUrl]⟩
  | str u =>
    by_cases h1 : jsTrim u = ""
    · exact ⟨by simp [parseUrl, exErr, h1], by simp [parseUrl, h1]⟩
    · by_cases h2 : jsLength u > parseUrlMaxInputLength
      · exact ⟨by simp [parseUrl, exErr, h1, h2], by simp [parseUrl, h1, h2]⟩
      · cases hn : parseUrlNormalize u n with
        | error e =>
          exact ⟨by simp [parseUrl, exErr, h1, h2, hn],
                 by simp [parseUrl, h1, h2, hn]⟩
        | ok u2 =>
          cases hpf : (parsePath u2).parse_failed with
          | true =>
            cases hg : gitRepoMatch (parsePath u2).href with
            | some m =>
              exact ⟨by simp [parseUrl, exErr, h1, h2, hn, hpf, hg],
                     by simp [parseUrl, h1, h2, hn, hpf, hg]⟩
            | none =>
              exact ⟨by simp [parseUrl, exErr, h1, h2, hn, hpf, hg],
                     by simp [parseUrl, h1, h2, hn, hpf, hg]⟩
          | false =>
            exact ⟨by simp [parseUrl, exErr, h1, h2, hn, hpf],
                   by simp [parseUrl, h1, h2, hn, hpf]⟩

/-- Witness for C2 (amended): the success case at the concrete input
`invalid_url` (a likely file path, so the general parse does not
fail). -/
theorem parseUrl_throw_iff_amended_witness :
    (parsePath "invalid_url").parse_failed = false :=
  (parseUrl_throw_iff_amended (.str "invalid_url") (.ofBool false)).2
    (parsePath "invalid_url") (by rfl)

/-- C3: whenever the general URL parse fails on an input that survives
the string/blank/length checks, and the input matches the
`GIT_REPOSITORY` pattern through its `user@` alternative, `parseUrl`
returns an object with protocol `ssh`, protocols `['ssh']`, resource
and host the matched host, user the matched user, pathname `/` plus
the matched path, and `parse_failed` false. -/
theorem parseUrl_git_ssh_branch (u : String) (user host path : String)
    (h1 : jsTrim u ≠ "") (h2 : ¬ jsLength u > parseUrlMaxInputLength)
    (h3 : (parsePath u).parse_failed = true)
    (h4 : gitRepoMatch (parsePath u).href = some (some user, host, path)) :
    ∃ p, parseUrl (.str u) (.ofBool false) = .ok p
      ∧ p.protocol = some "ssh" ∧ p.protocols = ["ssh"] ∧ p.resource = host
      ∧ p.host = host ∧ p.user = some user ∧ p.pathname = "/" ++ path
      ∧ p.parse_failed = false := by
  refine ⟨{ parsePath u with
            protocols := ["ssh"], protocol := some "ssh", resource := host,
            host := host, user := some user, pathname := "/" ++ path,
            parse_failed := false }, ?_, rfl, rfl, rfl, rfl, rfl, rfl, rfl⟩
  simp [parseUrl, parseUrlNormalize, h1, h2, h3, h4]

/-- Witness for C3 at `git@github.com:user/repo.git`. -/
theorem parseUrl_git_ssh_branch_witness :
    ∃ p, parseUrl (.str "git@github.com:user/repo.git") (.ofBool false) = .ok p
      ∧ p.protocol = some "ssh" ∧ p.protocols = ["ssh"]
      ∧ p.resource = "github.com" ∧ p.host = "github.com"
      ∧ p.user = some "git" ∧ p.pathname = "/" ++ "user/repo.git"
      ∧ p.parse_failed = false :=
  parseUrl_git_ssh_branch "git@github.com:user/repo.git" "git" "github.com"
    "user/repo.git" (by decide) (by decide) (by rfl) (by rfl)

/-- A split never returns the empty list of pieces. -/
theorem splitCharList_ne_nil (p : Char → Bool) (l : List Char) :
    splitCharList p l ≠ [] := by
  cases l with
  | nil => simp [splitCharList]
  | cons c r =>
    unfold splitCharList
    by_cases h : p c = true
    · simp [h]
    · simp only [h, if_false, Bool.false_eq_true]
      cases hsp : splitCharList p r <;> simp

/-- When the first character is not a separator, the first piece of the
split starts with it. -/
theorem splitCharList_cons_of_not (p : Char → Bool) (c : Char)
    (r : List Char) (h : p c = false) :
    ∃ piece rest, splitCharList p (c :: r) = (c :: piece) :: rest := by
  unfold splitCharList
  cases hsp : splitCharList p r with
  | nil => exact ⟨[], [], by simp [h, hsp]⟩
  | cons s ss => exact ⟨s, ss, by simp [h, hsp]⟩

/-- Lowercasing an ASCII letter never yields `:` or `+`. -/
theorem asciiLower_alpha_ne (c : Char) (h : c.isAlpha = true) :
    ¬ (asciiLower c = ':' ∨ asciiLower c = '+') := by
  unfold asciiLower
  split
  all_goals try decide
  rintro (heq | heq) <;> rw [heq] at h <;> exact absurd h (by decide)

/-- Shape of a successful scheme parse: the scheme is the lowercased
input run, led by an ASCII letter. -/
theorem splitScheme_shape (l : List Char) (scheme : String)
    (rest : List Char) (h : splitScheme l = some (scheme, rest)) :
    ∃ c run, c.isAlpha = true
      ∧ scheme = asciiLowerStr (String.mk (c :: run)) := by
  unfold splitScheme at h
  cases l with
  | nil => exact absurd h (by simp)
  | cons c r =>
    by_cases hc : c.isAlpha = true
    · simp only [hc, if_true] at h
      split at h
      · simp only [Option.some.injEq, Prod.mk.injEq] at h
        exact ⟨c, _, hc, h.1.symm⟩
      · exact absurd h (by simp)
    · simp [hc] at h

/-- The protocol pieces of a parsed scheme are non-empty and contain no
empty piece. -/
theorem protocolSplits_scheme (c : Char) (run : List Char)
    (hc : c.isAlpha = true) :
    protocolSplits (asciiLowerStr (String.mk (c :: run)) ++ ":") ≠ []
      ∧ "" ∉ protocolSplits (asciiLowerStr (String.mk (c :: run)) ++ ":") := by
  have hdata : (asciiLowerStr (String.mk (c :: run)) ++ ":").toList
      = asciiLower c :: (run.map asciiLower ++ [':']) := by
    simp [asciiLowerStr, String.toList]
  have hsep : (fun ch => decide (ch = ':' ∨ ch = '+')) (asciiLower c) = false := by
    simp only [decide_eq_false_iff_not]
    exact asciiLower_alpha_ne c hc
  obtain ⟨piece, rest, hsplit⟩ :=
    splitCharList_cons_of_not (fun ch => decide (ch = ':' ∨ ch = '+'))
      (asciiLower c) (run.map asciiLower ++ [':']) hsep
  have hmk : String.mk (asciiLower c :: piece) ≠ "" := by
    intro he
    exact List.cons_ne_nil _ _ (congrArg String.data he)
  constructor
  · unfold protocolSplits jsSplit
    rw [hdata, hsplit]
    simp [hmk]
  · unfold protocolSplits jsSplit
    intro hmem
    have := (List.mem_filter.mp hmem).2
    simp at this

/-- Every URL the model parses has a non-empty protocol split without
empty pieces. -/
theorem jsURLParse_protocol (s : String) (u : URLRec)
    (h : jsURLParse s = some u) :
    protocolSplits u.protocol ≠ [] ∧ "" ∉ protocolSplits u.protocol := by
  unfold jsURLParse at h
  cases hs : splitScheme s.toList with
  | none => rw [hs] at h; exact absurd h (by simp)
  | some pr =>
    rw [hs] at h
    obtain ⟨scheme, rest⟩ := pr
    obtain ⟨c, run, hc, hscheme⟩ := splitScheme_shape _ _ _ hs
    have key := protocolSplits_scheme c run hc
    rw [← hscheme] at key
    have hproto : u.protocol = scheme ++ ":" := by
      by_cases hsp : specialSchemes.contains scheme = true
      · simp only [hsp, if_true] at h
        split at h
        · exact absurd h (by simp)
        · simp only [Option.some.injEq] at h
          subst h
          rfl
      · simp only [hsp, Bool.false_eq_true, if_false] at h
        split at h
        · split at h
          · exact absurd h (by simp)
          · simp only [Option.some.injEq] at h
            subst h
            rfl
        · simp only [Option.some.injEq] at h
          subst h
          rfl
    rw [hproto]
    exact key

/-- The function `parsePath` always reports a non-empty protocol list without empty
entries. -/
theorem parsePath_protocols (path : String) :
    (parsePath path).protocols ≠ [] ∧ "" ∉ (parsePath path).protocols := by
  unfold parsePath
  cases hu : jsURLParse path with
  | none => simp
  | some u =>
    have key := jsURLParse_protocol path u hu
    have hlist : protocolsList (.url u) = protocolSplits u.protocol := rfl
    simpa [hlist] using key

/-- Every successful `parseUrl` result carries a non-empty protocol
list without empty entries. -/
theorem parseUrl_protocols (v : UrlVal) (n : NormalizeArg) (p : ParsedPath)
    (h : parseUrl v n = .ok p) :
    p.protocols ≠ [] ∧ "" ∉ p.protocols := by
  cases v with
  | other t => simp [parseUrl] at h
  | str u =>
    simp only [parseUrl] at h
    by_cases h1 : jsTrim u = ""
    · rw [if_pos h1] at h; exact absurd h (by simp)
    · rw [if_neg h1] at h
      by_cases h2 : jsLength u > parseUrlMaxInputLength
      · rw [if_pos h2] at h; exact absurd h (by simp)
      · rw [if_neg h2] at h
        cases hn : parseUrlNormalize u n with
        | error e => rw [hn] at h; exact absurd h (by simp)
        | ok u2 =>
          rw [hn] at h
          simp only at h
          cases hpf : (parsePath u2).parse_failed with
          | true =>
            rw [hpf] at h
            simp only [if_true] at h
            cases hg : gitRepoMatch (parsePath u2).href with
            | none => rw [hg] at h; exact absurd h (by simp)
            | some m =>
              rw [hg] at h
              simp only [Option.some.injEq, Except.ok.injEq] at h
              subst h
              exact ⟨by simp, by simp⟩
          | false =>
            rw [hpf] at h
            simp only [Bool.false_eq_true, if_false, Except.ok.injEq] at h
            subst h
            exact parsePath_protocols u2

/-- C10: whenever `gitUp` does not throw, the returned object's
protocol is neither missing nor empty and its protocols array is
non-empty; the protocol is `ssh` when the detected protocols (or, with
no protocols detected, the raw input) indicate SSH, otherwise the first
detected protocol, and otherwise `file` with protocols `['file']`. -/
theorem gitUp_protocol_cases (s : String) (g : GitUp)
    (h : gitUp s = .ok g) :
    g.parsed.protocols ≠ [] ∧ g.parsed.protocol ≠ none
      ∧ g.parsed.protocol ≠ some ""
      ∧ ∃ p0, parseUrl (.str s) (.ofBool false) = .ok p0
        ∧ ((isSSHList p0.protocols = true
              ∨ (p0.protocols = [] ∧ isSSHStr s = true)) →
            g.parsed.protocol = some "ssh")
        ∧ (isSSHList p0.protocols = false → p0.protocols ≠ [] →
            g.parsed.protocol = some (p0.protocols.headD "")
              ∧ g.parsed.protocols = p0.protocols)
        ∧ (isSSHList p0.protocols = false → p0.protocols = [] →
            isSSHStr s = false →
            g.parsed.protocol = some "file"
              ∧ g.parsed.protocols = ["file"]) := by
  unfold gitUp at h
  cases hp : parseUrl (.str s) (.ofBool false) with
  | error e => rw [hp] at h; exact absurd h (by simp)
  | ok p0 =>
    rw [hp] at h
    simp only [Except.ok.injEq] at h
    subst h
    obtain ⟨hne, hnem⟩ := parseUrl_protocols _ _ _ hp
    obtain ⟨x, xs, hx⟩ : ∃ x xs, p0.protocols = x :: xs := by
      cases hpp : p0.protocols with
      | nil => exact absurd hpp hne
      | cons a as => exact ⟨a, as, rfl⟩
    have hxne : x ≠ "" := fun he =>
      hnem (he ▸ hx ▸ List.mem_cons_self _ _)
    by_cases hssh : (isSSHList p0.protocols = true
        ∨ (p0.protocols = [] ∧ isSSHStr s = true))
    · refine ⟨?_, ?_, ?_, p0, rfl, ?_, ?_, ?_⟩
      · simpa [hssh] using hne
      · simp [hssh]
      · simp [hssh]
      · intro _; simp [hssh]
      · intro ha hb
        rcases hssh with h' | ⟨hnil, _⟩
        · exact absurd h' (by simp [ha])
        · exact absurd hnil hb
      · intro _ hnil _; exact absurd hnil hne
    · have hsshf : isSSHList p0.protocols = false :=
        Bool.eq_false_iff.mpr fun h' => hssh (Or.inl h')
      have hsshf2 : isSSHList (x :: xs) = false := hx ▸ hsshf
      refine ⟨?_, ?_, ?_, p0, rfl, ?_, ?_, ?_⟩
      · simp [hssh, hne, hsshf, hsshf2, hx]
      · simp [hssh, hne, hsshf, hsshf2]
      · simp [hssh, hne, hsshf, hsshf2, hx, hxne]
      · intro h'; exact absurd h' hssh
      · intro _ _; simp [hssh, hne, hsshf]
      · intro _ hnil _; exact absurd hnil hne

/-- Witness for C10, at the concrete input
`https://github.com/u/r.git` (a non-SSH URL, so the protocol is the
first detected protocol `https`). -/
theorem gitUp_protocol_cases_witness :
    ({ parsed :=
        { protocols := ["https"], protocol := some "https", port := some "",
          resource := "github.com", host := "github.com", user := some "",
          password := "", pathname := "/u/r.git", hash := "", search := "",
          href := "https://github.com/u/r.git", query := [],
          parse_failed := false }
       token := some "" } : GitUp).parsed.protocols ≠ [] :=
  (gitUp_protocol_cases "https://github.com/u/r.git" _ (by rfl)).1

/-- C5 counterexample: not every utility reports malformed input by
throwing — `stringWidth` returns the default 0 for a non-string
argument, `parsePath` reports failure through the `parse_failed` flag
of its result, and `protocols` returns an empty array for an invalid
URL string; none of them throws. -/
theorem error_reporting_not_throw_cex :
    stringWidth modelEnv (.other "number") {} = 0 ∧
    (parsePath "git@github.com:user/repo.git").parse_failed = true ∧
    protocols (.str "not a url") = .list [] :=
  ⟨rfl, by rfl, by rfl⟩

/-- C5 (amended): several utilities do report malformed input by an
immediate synchronous throw (`stripAnsi`, `eastAsianWidth`,
`parseUrl`), but not all of them: `stringWidth` returns the default 0
for non-string input, `protocols` returns an empty array for invalid
URLs, and `parsePath` reports failure through the `parse_failed` flag
of its result. -/
theorem error_reporting_mixed_amended (env : WidthEnv) (t : String)
    (o : StringWidthOptions) (n : JSNum) (hn : isSafeInteger n = false) :
    stringWidth env (.other t) o = 0 ∧
    stripAnsiJS (.other t)
        = .error (.typeError ("Expected a string, got " ++ t)) ∧
    eastAsianWidth n {} = .error (.typeError "Expected a code point.") ∧
    parseUrl (.other t) (.ofBool false) = .error (.error "Invalid URL.") ∧
    (∀ s, jsTrim s = "" →
      parseUrl (.str s) (.ofBool false) = .error (.error "Invalid URL.")) := by
  refine ⟨rfl, rfl, ?_, rfl, ?_⟩
  · simp [eastAsianWidth, validate, hn]
  · intro s h
    simp [parseUrl, h]

/-- Witness for C5 (amended), at concrete inputs. -/
theorem error_reporting_mixed_amended_witness :
    stringWidth modelEnv (.other "number") ({} : StringWidthOptions) = 0 ∧
    eastAsianWidth .nonInt {} = .error (.typeError "Expected a code point.") ∧
    parseUrl (.str "   ") (.ofBool false) = .error (.error "Invalid URL.") := by
  have h := error_reporting_mixed_amended modelEnv "number" {} .nonInt (by decide)
  exact ⟨h.1, h.2.2.1, h.2.2.2.2 "   " (by decide)⟩

/-- C9: `prettyMilliseconds` mutates the caller-supplied options
object: after a returning call, a truthy `colonNotation` has written
false into `compact`, `formatSubMilliseconds`, `separateMilliseconds`
and `verbose`; a truthy `compact` (checked after that first write, so
effectively with `colonNotation` falsy) has written `unitCount = 1`,
`secondsDecimalDigits = 0` and `millisecondsDecimalDigits = 0`; and
with both flags truthy the `colonNotation` write wins, so `unitCount`
is untouched. -/
theorem prettyMilliseconds_mutates_options (m : PrettyMsInput)
    (o o2 : PrettyMsOptions)
    (h : prettyMillisecondsOptionsAfter m o = .ok o2) :
    (o.colonNotationMode = true →
      o2.compact = false ∧ o2.formatSubMilliseconds = false ∧
      o2.separateMilliseconds = false ∧ o2.verbose = false) ∧
    (o.colonNotationMode = false → o.compact = true →
      o2.unitCount = some 1 ∧ o2.secondsDecimalDigits = some 0 ∧
      o2.millisecondsDecimalDigits = some 0) ∧
    (o.colonNotationMode = true → o2.unitCount = o.unitCount) := by
  have ho2 : o2 = prettyMsOptionEffects o := by
    cases m with
    | nonFiniteNum => exact absurd h (by simp [prettyMillisecondsOptionsAfter])
    | finiteNum =>
      simpa [prettyMillisecondsOptionsAfter] using h.symm
    | bigint =>
      simpa [prettyMillisecondsOptionsAfter] using h.symm
  subst ho2
  refine ⟨?_, ?_, ?_⟩
  · intro hc
    simp [prettyMsOptionEffects, hc]
  · intro hc hcp
    simp [prettyMsOptionEffects, hc, hcp]
  · intro hc
    simp [prettyMsOptionEffects, hc]

/-- Witness for C9 at concrete option records. -/
theorem prettyMilliseconds_mutates_options_witness :
    (({ colonNotationMode := true, compact := true } :
        PrettyMsOptions) |> fun o =>
      (prettyMsOptionEffects o).compact = false
        ∧ (prettyMsOptionEffects o).unitCount = none) ∧
    (prettyMsOptionEffects { compact := true }).unitCount = some 1 := by
  have h1 := prettyMilliseconds_mutates_options .finiteNum
    { colonNotationMode := true, compact := true }
    (prettyMsOptionEffects { colonNotationMode := true, compact := true }) rfl
  have h2 := prettyMilliseconds_mutates_options .finiteNum
    { compact := true }
    (prettyMsOptionEffects { compact := true }) rfl
  exact ⟨⟨(h1.1 rfl).1, h1.2.2 rfl⟩, (h2.2.1 rfl rfl).1⟩

/-- Closed form of the wrapper state: after at least one call the
underlying function has run exactly once (on invocation index 0) and
its result is cached. -/
theorem onetimeRun_spec (throwOpt : Bool) (g : Nat → α) (n : Nat) :
    onetimeRun throwOpt g n =
      if n = 0 then onetimeInit
      else { callCount := n, returnValue := some (g 0), fnReleased := true,
             invocations := 1 } := by
  induction n with
  | zero => rfl
  | succ n ih =>
    have h1 : onetimeRun throwOpt g (n + 1)
        = (onetimeCall throwOpt g (onetimeRun throwOpt g n)).2 := rfl
    rw [h1, ih]
    cases n with
    | zero => simp [onetimeInit, onetimeCall]
    | succ m => cases throwOpt <;> simp [onetimeCall]

/-- C7: a function wrapped by `onetime` runs at most once — after any
number of calls the underlying function has been invoked `min n 1`
times; the first call returns the underlying result (of invocation 0)
and every later call returns that same first result, or throws an
`Error` when `options.throw` is set. -/
theorem onetime_invokes_at_most_once (throwOpt : Bool) (g : Nat → α)
    (n : Nat) :
    (onetimeRun throwOpt g n).invocations = min n 1 ∧
    ((onetimeCall throwOpt g (onetimeRun throwOpt g n)).1 =
      if n = 0 then .ok (some (g 0))
      else if throwOpt then .error (.error "Function can only be called once")
      else .ok (some (g 0))) := by
  constructor
  · rw [onetimeRun_spec]
    cases n with
    | zero => rfl
    | succ m => simp [onetimeInit, Nat.succ_min_succ]
  · rw [onetimeRun_spec]
    cases n with
    | zero => rfl
    | succ m =>
      simp only [Nat.succ_ne_zero, if_false]
      rcases throwOpt.eq_false_or_eq_true with ht | ht <;>
        simp [ht, onetimeCall]

/-- C6: `stringWidth`, `stripAnsi`, `parseUrl` and `gitUp` are
stateless pure functions: in a fixed environment, two calls on equal
arguments return equal results regardless of the shared store they run
against, and no call changes the store that a later call of any of
these functions could observe. -/
theorem string_url_utils_stateless (env : WidthEnv) (v : CPVal)
    (o : StringWidthOptions) (w : UrlVal) (n : NormalizeArg) (s : String)
    (st st2 : LibStore) :
    ((stringWidthSt env v o st).1 = (stringWidthSt env v o st2).1
      ∧ (stringWidthSt env v o st).2 = st) ∧
    ((stripAnsiSt v st).1 = (stripAnsiSt v st2).1
      ∧ (stripAnsiSt v st).2 = st) ∧
    ((parseUrlSt w n st).1 = (parseUrlSt w n st2).1
      ∧ (parseUrlSt w n st).2 = st) ∧
    ((gitUpSt s st).1 = (gitUpSt s st2).1
      ∧ (gitUpSt s st).2 = st) :=
  ⟨⟨rfl, rfl⟩, ⟨rfl, rfl⟩, ⟨rfl, rfl⟩, ⟨rfl, rfl⟩⟩
